import Mathlib

/-!
Verification of the Grant Discovery Sync Pipeline of bwright77/wright-adventures.

The pipeline lives in `api/discovery/sync.ts`; it fetches candidate grant ids
from a registry, deduplicates against persisted opportunities, runs a two-stage
model pipeline (extraction then scoring) per candidate, and inserts candidates
that clear a threshold.  The database schema, including the partial unique
index on `(source, external_id)`, is in
`supabase/migrations/20260225000000_ai_grant_writing.sql`; the drafting
assistant that shares the monthly token ledger is `api/ai/chat.ts`.

External effects (HTTP fetches, model calls, the externally mutated run-status
row read by the cancellation checkpoint) are modelled as oracle functions
supplied in an `Env`; database tables are lists in a `Db` record; wall-clock
timestamp columns are omitted.  The generic cast in the TypeScript helper
`parseJson<T>` is unchecked at runtime, so per-candidate oracles supply model
responses both may be given as raw text (for the parsing claims) and as the
already-parsed result of that cast (for the pipeline claims).
-/

namespace WA

/-! ## JSON values and a JSON.parse model

`parseJson` in sync.ts runs a regex match and then `JSON.parse` on the match.
We model JSON.parse with an executable recursive-descent parser over the JSON
grammar (RFC 8259): whitespace, literals, numbers, strings with escapes,
arrays and objects.  Numbers are modelled as rationals.
-/

inductive Json where
  | null : Json
  | bool (b : Bool) : Json
  | num (q : Rat) : Json
  | str (s : String) : Json
  | arr (elems : List Json) : Json
  | obj (members : List (String × Json)) : Json

def isJsonWs (c : Char) : Bool :=
  c = ' ' || c = '\t' || c = '\n' || c = '\r'

def skipWs (s : List Char) : List Char := s.dropWhile isJsonWs

/-- Decimal digit test on the code point (48–57). -/
def isDigitC (c : Char) : Bool := 48 ≤ c.toNat && c.toNat ≤ 57

/-- Numeric value of a decimal digit character. -/
def digitVal (c : Char) : Nat := c.toNat - 48

/-- Value of one hexadecimal digit, computed on the code point
(48–57 are the digits, 97–102 lowercase a–f, 65–70 uppercase A–F). -/
def hexVal (c : Char) : Option Nat :=
  let n := c.toNat
  if 48 ≤ n ∧ n ≤ 57 then some (n - 48)
  else if 97 ≤ n ∧ n ≤ 102 then some (n - 87)
  else if 65 ≤ n ∧ n ≤ 70 then some (n - 55)
  else none

/-- Consume a maximal run of decimal digits, returning accumulated value,
digit count, and the rest of the input. -/
def takeDigits : List Char → Nat → Nat → Nat × Nat × List Char
  | [], acc, n => (acc, n, [])
  | c :: rest, acc, n =>
    if isDigitC c then takeDigits rest (acc * 10 + digitVal c) (n + 1)
    else (acc, n, c :: rest)

/-- Assemble a rational from parsed number parts:
sign, integer part, fraction digits/count, exponent sign/value.
Written with `mkRat` over integer arithmetic so it evaluates by kernel
reduction. -/
def ratOfParts (neg : Bool) (ip fp fc : Nat) (eNeg : Bool) (e : Nat) : Rat :=
  let mant : Nat := ip * 10 ^ fc + fp
  let mantE : Nat := if eNeg then mant else mant * 10 ^ e
  let den : Nat := if eNeg then 10 ^ fc * 10 ^ e else 10 ^ fc
  let sign : Int := if neg then -1 else 1
  mkRat (sign * (mantE : Int)) den

/-- JSON number grammar: `-?(0|[1-9][0-9]*)(\.[0-9]+)?([eE][-+]?[0-9]+)?`. -/
def parseNumber (s : List Char) : Option (Rat × List Char) :=
  let (neg, s1) : Bool × List Char :=
    match s with
    | '-' :: r => (true, r)
    | _ => (false, s)
  match s1 with
  | [] => none
  | c :: _ =>
    if ¬ isDigitC c then none
    else
      let (ip, ic, s2) := takeDigits s1 0 0
      if c = '0' ∧ ic ≠ 1 then none
      else
        let fracRes : Option (Nat × Nat × List Char) :=
          match s2 with
          | '.' :: s3 =>
            let (fp, fc, s4) := takeDigits s3 0 0
            if fc = 0 then none else some (fp, fc, s4)
          | _ => some (0, 0, s2)
        match fracRes with
        | none => none
        | some (fp, fc, s4) =>
          match s4 with
          | 'e' :: s5 | 'E' :: s5 =>
            let (eNeg, s6) : Bool × List Char :=
              match s5 with
              | '-' :: r => (true, r)
              | '+' :: r => (false, r)
              | _ => (false, s5)
            let (ev, ec, s7) := takeDigits s6 0 0
            if ec = 0 then none
            else some (ratOfParts neg ip fp fc eNeg ev, s7)
          | _ => some (ratOfParts neg ip fp fc false 0, s4)

/-- Body of a JSON string after the opening quote; `acc` holds output chars in
reverse.  Handles the escape sequences of RFC 8259 and rejects raw control
characters.  Fuelled to keep recursion structurally obvious. -/
def parseStringBody : Nat → List Char → List Char → Option (List Char × List Char)
  | 0, _, _ => none
  | Nat.succ fuel, acc, input =>
    match input with
    | [] => none
    | '"' :: rest => some (acc.reverse, rest)
    | '\\' :: rest =>
      match rest with
      | [] => none
      | e :: rest2 =>
        if e = '"' then parseStringBody fuel ('"' :: acc) rest2
        else if e = '\\' then parseStringBody fuel ('\\' :: acc) rest2
        else if e = '/' then parseStringBody fuel ('/' :: acc) rest2
        else if e = 'b' then parseStringBody fuel (Char.ofNat 8 :: acc) rest2
        else if e = 'f' then parseStringBody fuel (Char.ofNat 12 :: acc) rest2
        else if e = 'n' then parseStringBody fuel ('\n' :: acc) rest2
        else if e = 'r' then parseStringBody fuel (Char.ofNat 13 :: acc) rest2
        else if e = 't' then parseStringBody fuel ('\t' :: acc) rest2
        else if e = 'u' then
          match rest2 with
          | a :: b :: c :: d :: rest3 =>
            match hexVal a, hexVal b, hexVal c, hexVal d with
            | some ha, some hb, some hc, some hd =>
              parseStringBody fuel
                (Char.ofNat (((ha * 16 + hb) * 16 + hc) * 16 + hd) :: acc) rest3
            | _, _, _, _ => none
          | _ => none
        else none
    | c :: rest =>
      if c.toNat < 32 then none else parseStringBody fuel (c :: acc) rest

mutual

/-- Parse one JSON value (after optional leading whitespace). -/
def parseValue : Nat → List Char → Option (Json × List Char)
  | 0, _ => none
  | Nat.succ fuel, s =>
    match skipWs s with
    | [] => none
    | '{' :: rest => parseObjStart fuel rest
    | '[' :: rest => parseArrStart fuel rest
    | '"' :: rest =>
      match parseStringBody (rest.length + 1) [] rest with
      | some (cs, rest2) => some (Json.str (String.mk cs), rest2)
      | none => none
    | 't' :: rest =>
      if rest.take 3 = ['r', 'u', 'e'] then some (Json.bool true, rest.drop 3) else none
    | 'f' :: rest =>
      if rest.take 4 = ['a', 'l', 's', 'e'] then some (Json.bool false, rest.drop 4) else none
    | 'n' :: rest =>
      if rest.take 3 = ['u', 'l', 'l'] then some (Json.null, rest.drop 3) else none
    | c :: rest =>
      if c = '-' || isDigitC c then
        match parseNumber (c :: rest) with
        | some (q, rest2) => some (Json.num q, rest2)
        | none => none
      else none

/-- Immediately after `{`: empty object or first member. -/
def parseObjStart : Nat → List Char → Option (Json × List Char)
  | 0, _ => none
  | Nat.succ fuel, s =>
    match skipWs s with
    | '}' :: rest => some (Json.obj [], rest)
    | other => parseMember fuel [] other

/-- One `"key": value` member followed by `,` (more members) or `}`. -/
def parseMember : Nat → List (String × Json) → List Char → Option (Json × List Char)
  | 0, _, _ => none
  | Nat.succ fuel, acc, s =>
    match skipWs s with
    | '"' :: rest =>
      match parseStringBody (rest.length + 1) [] rest with
      | some (key, rest2) =>
        match skipWs rest2 with
        | ':' :: rest3 =>
          match parseValue fuel rest3 with
          | some (v, rest4) =>
            let acc2 := acc ++ [(String.mk key, v)]
            match skipWs rest4 with
            | ',' :: rest5 => parseMember fuel acc2 rest5
            | '}' :: rest5 => some (Json.obj acc2, rest5)
            | _ => none
          | none => none
        | _ => none
      | none => none
    | _ => none

/-- Immediately after `[`: empty array or first element. -/
def parseArrStart : Nat → List Char → Option (Json × List Char)
  | 0, _ => none
  | Nat.succ fuel, s =>
    match skipWs s with
    | ']' :: rest => some (Json.arr [], rest)
    | other => parseElem fuel [] other

/-- One array element followed by `,` (more elements) or `]`. -/
def parseElem : Nat → List Json → List Char → Option (Json × List Char)
  | 0, _, _ => none
  | Nat.succ fuel, acc, s =>
    match parseValue fuel s with
    | some (v, rest) =>
      let acc2 := acc ++ [v]
      match skipWs rest with
      | ',' :: rest2 => parseElem fuel acc2 rest2
      | ']' :: rest2 => some (Json.arr acc2, rest2)
      | _ => none
    | none => none

end

/-- Model of `JSON.parse`: the whole string must be one JSON value plus
optional surrounding whitespace.  Fuel `length + 1` suffices because every
fueled recursive call strictly consumes input. -/
def jsonParse (s : String) : Option Json :=
  match parseValue (s.length + 1) s.data with
  | some (v, rest) => if skipWs rest = [] then some v else none
  | none => none

/-! ## The sync.ts `parseJson` helper

```
function parseJson<T>(text: string): T | null {
  const match = text.match(/\x7b[\s\S]*\x7d/)
  if (!match) return null
  try { return JSON.parse(match[0]) as T } catch { return null }
}
```

The regex is greedy: the match is the substring from the first `{` in the
text through the last `}` (no match when none exists in that order). -/

/-- The substring matched by the greedy regex: from the first `{` through
the last `}` after it, if any. -/
def regexExtract (s : List Char) : Option (List Char) :=
  let fromBrace := s.dropWhile (fun c => c ≠ '{')
  let trimmed := (fromBrace.reverse.dropWhile (fun c => c ≠ '}')).reverse
  if trimmed = [] then none else some trimmed

/-- `parseJson` of sync.ts line 70: regex-extract, then `JSON.parse`,
returning `none` on either failure. -/
def parseJson (text : String) : Option Json :=
  match regexExtract text.data with
  | none => none
  | some m => jsonParse (String.mk m)

/-! ## Data model (sync.ts interfaces and the relevant tables) -/

/-- `ExtractedFields` (sync.ts lines 27–38).  In the source `grant_type` is the
literal type `'federal'`, `amount_requested` and `loi_deadline` the literal
`null`; they are kept as fields so the inserted row is built exactly as the
source builds it. -/
structure ExtractedFields where
  name : String
  funder : Option String
  grant_type : String
  description : Option String
  amount_requested : Option Rat
  amount_max : Option Rat
  primary_deadline : Option String
  loi_deadline : Option String
  eligibility_notes : Option String
  cfda_number : Option String
deriving DecidableEq

/-- The five per-criterion scores of `ScoreResult.scores`. -/
structure CriterionScores where
  mission_alignment : Rat
  geographic_eligibility : Rat
  applicant_eligibility : Rat
  award_size_fit : Rat
  population_alignment : Rat
deriving DecidableEq

/-- `ScoreResult` (sync.ts lines 40–54). -/
structure ScoreResult where
  scores : CriterionScores
  weighted_score : Rat
  auto_rejected : Bool
  auto_reject_reason : Option String
  rationale : String
  red_flags : List String
  recommended_action : String
deriving DecidableEq

/-- One entry of the run's structured error log (timestamp omitted: the model
has no clock). -/
structure ErrorEntry where
  label : String
  error : String
deriving DecidableEq

/-- `RunStats` (sync.ts lines 56–66). -/
structure RunStats where
  opportunities_fetched : Nat
  opportunities_deduplicated : Nat
  opportunities_detail_fetched : Nat
  opportunities_auto_rejected : Nat
  opportunities_below_threshold : Nat
  opportunities_inserted : Nat
  tokens_haiku : Nat
  tokens_sonnet : Nat
  error_log : List ErrorEntry
deriving DecidableEq

def initialStats : RunStats :=
  { opportunities_fetched := 0
    opportunities_deduplicated := 0
    opportunities_detail_fetched := 0
    opportunities_auto_rejected := 0
    opportunities_below_threshold := 0
    opportunities_inserted := 0
    tokens_haiku := 0
    tokens_sonnet := 0
    error_log := [] }

/-- A row of the `opportunities` table, restricted to the columns this
pipeline writes (migration 20260225000000, lines 73–95; insert at sync.ts
lines 377–397).  `discovered_at`/timestamps omitted. -/
structure OppRow where
  type_id : String
  name : String
  funder : Option String
  grant_type : String
  description : Option String
  amount_max : Option Rat
  primary_deadline : Option String
  loi_deadline : Option String
  eligibility_notes : Option String
  cfda_number : Option String
  status : String
  source : Option String
  external_id : Option String
  external_url : String
  ai_match_score : Option Rat
  ai_match_rationale : Option String
  ai_score_detail : Option ScoreResult
  auto_discovered : Bool
deriving DecidableEq

/-- A row of `discovery_queries` (columns used by sync.ts lines 273–302). -/
structure QueryRow where
  id : Nat
  label : String
  enabled : Bool
  priority : Nat
  current_page : Option Nat
deriving DecidableEq

/-- A row of `org_profiles` (columns used by sync.ts lines 263–270). -/
structure OrgProfileRow where
  id : Nat
  prompt_text : String
  is_active : Bool
deriving DecidableEq

/-- A row of `discovery_runs`: lifecycle status plus what the finalizing
update wrote (`counters` stays `none` until a finalize that includes the
spread stats; the failed path writes only the fatal error log). -/
structure RunRow where
  id : Nat
  triggered_by : String
  status : String
  counters : Option RunStats
  row_error_log : Option (List ErrorEntry)
deriving DecidableEq

/-- The database tables the pipeline touches.  `profiles` maps user id to
role; `token_budget_used` is `token_budgets.tokens_used` for the current
period (the shared monthly ledger of api/ai/chat.ts and api/ai/usage.ts). -/
structure Db where
  opportunities : List OppRow
  discovery_queries : List QueryRow
  org_profiles : List OrgProfileRow
  discovery_runs : List RunRow
  profiles : List (Nat × String)
  token_budget_used : Nat
deriving DecidableEq

/-! ## Environment: oracles for every external effect -/

/-- One `generateText` call as observed by the caller: response text and
token usage (`promptTokens`/`completionTokens` after the `?? 0` coalescing). -/
structure ModelCall where
  text : String
  promptTokens : Nat
  completionTokens : Nat

/-- Result of `searchOpportunities`: candidate ids and
`pagination_info.total_pages ?? 1`. -/
structure SearchOutcome where
  ids : List String
  totalPages : Nat

/-- Everything the environment supplies for one candidate id: the detail
fetch (error = thrown message), the extraction call and the value of
`parseJson<ExtractedFields>` on its text, likewise for scoring.  The parsed
results are oracle inputs because the TypeScript generic cast is unchecked. -/
structure CandidateEnv where
  detail : Except String String
  extractCall : ModelCall
  extractResult : Option ExtractedFields
  scoreCall : ModelCall
  scoreResult : Option ScoreResult

/-- The run's environment: search results per query id, per-candidate data,
the run-status value read at the cancellation checkpoint before batch item
`i` (`cancelSignal i = true` means that read returned `'cancelling'`),
and the auth configuration (`CRON_SECRET`, `supabase.auth.getUser`). -/
structure Env where
  search : Nat → Except String SearchOutcome
  candidate : String → CandidateEnv
  cancelSignal : Nat → Bool
  cronSecret : Option String
  authUser : String → Option Nat

/-- Trace of external effects, used to state that a call did not happen. -/
inductive Event where
  | searchCall (queryId : Nat) : Event
  | detailCall (oppId : String) : Event
  | haikuCall (oppId : String) : Event
  | sonnetCall (oppId : String) : Event
  | insertAttempt (oppId : String) : Event
  | runFinalize (status : String) : Event
deriving DecidableEq

/-! ## Pipeline helpers -/

def pushError (stats : RunStats) (label error : String) : RunStats :=
  { stats with error_log := stats.error_log ++ [⟨label, error⟩] }

/-- sync.ts line 12. -/
def MAX_NEW_PER_RUN : Nat := 7

/-- `preScreen` (sync.ts lines 157–162): reject when the award ceiling is
non-null and below $5,000.  The interpolated amount in the reason string is
dropped (the caller uses the reason only as a flag). -/
def preScreen (fields : ExtractedFields) : Option String :=
  match fields.amount_max with
  | some m => if m < 5000 then some "Award ceiling is below minimum $5,000" else none
  | none => none

/-- Cursor advance (sync.ts line 290):
`(query.current_page ?? 1) >= totalPages ? 1 : (query.current_page ?? 1) + 1`. -/
def wrapPage (current : Option Nat) (totalPages : Nat) : Nat :=
  let cp := current.getD 1
  if cp ≥ totalPages then 1 else cp + 1

/-- Violation of the partial unique index
`opportunities_source_external_id_idx` on `(source, external_id)
WHERE external_id IS NOT NULL` (migration lines 93–95).  Per SQL semantics a
NULL column value never collides. -/
def conflicts (a b : OppRow) : Bool :=
  match a.source, a.external_id, b.source, b.external_id with
  | some sa, some ea, some sb, some eb => sa = sb && ea = eb
  | _, _, _, _ => false

/-- Insert into `opportunities`, enforcing the unique index. -/
def insertOpp (rows : List OppRow) (r : OppRow) : Except String (List OppRow) :=
  if rows.any (fun x => conflicts x r) then
    Except.error "duplicate key value violates unique constraint"
  else Except.ok (rows ++ [r])

/-- `.eq('is_active', true).single()`: exactly one active profile, else the
lookup yields nothing and the run fails fast (sync.ts lines 263–270). -/
def activeProfile (rows : List OrgProfileRow) : Option OrgProfileRow :=
  match rows.filter (fun p => p.is_active) with
  | [p] => some p
  | _ => none

def insertByPriority (q : QueryRow) : List QueryRow → List QueryRow
  | [] => [q]
  | x :: xs => if q.priority < x.priority then q :: x :: xs else x :: insertByPriority q xs

/-- `order('priority', ascending)` (sync.ts line 277). -/
def sortByPriority : List QueryRow → List QueryRow
  | [] => []
  | x :: xs => insertByPriority x (sortByPriority xs)

/-- `Set.add` preserving JS insertion order. -/
def addId (acc : List String) (id : String) : List String :=
  if id ∈ acc then acc else acc ++ [id]

def addIds (acc : List String) (ids : List String) : List String :=
  ids.foldl addId acc

/-- Cursor update `.eq('id', query.id)` (sync.ts lines 291–294). -/
def updateQueryPage (qs : List QueryRow) (qid : Nat) (p : Nat) : List QueryRow :=
  qs.map (fun q => if q.id = qid then { q with current_page := some p } else q)

/-- The dedup lookup (sync.ts lines 306–313): does any opportunity row carry
this `external_id`?  Note the source column is not consulted. -/
def existsExternal (rows : List OppRow) (id : String) : Bool :=
  rows.any (fun r => r.external_id = some id)

/-- The row inserted at sync.ts lines 377–397. -/
def buildRow (opportunityId : String) (fields : ExtractedFields) (score : ScoreResult) : OppRow :=
  { type_id := "grant"
    name := fields.name
    funder := fields.funder
    grant_type := fields.grant_type
    description := fields.description
    amount_max := fields.amount_max
    primary_deadline := fields.primary_deadline
    loi_deadline := none
    eligibility_notes := fields.eligibility_notes
    cfda_number := fields.cfda_number
    status := "grant_discovered"
    source := some "simpler_grants_gov"
    external_id := some opportunityId
    external_url := "https://simpler.grants.gov/opportunity/" ++ opportunityId
    ai_match_score := some score.weighted_score
    ai_match_rationale := some score.rationale
    ai_score_detail := some score
    auto_discovered := true }

/-! ## The per-candidate pipeline (body of the for-loop, sync.ts 332–414) -/

structure CandResult where
  db : Db
  stats : RunStats
  events : List Event

def processCandidate (env : Env) (opportunityId : String) (db : Db) (stats : RunStats) :
    CandResult :=
  let c := env.candidate opportunityId
  match c.detail with
  | Except.error e =>
    ⟨db, pushError stats ("process:" ++ opportunityId) e, [Event.detailCall opportunityId]⟩
  | Except.ok _ =>
    let stats1 := { stats with
      opportunities_detail_fetched := stats.opportunities_detail_fetched + 1 }
    let stats2 := { stats1 with
      tokens_haiku := stats1.tokens_haiku + c.extractCall.promptTokens + c.extractCall.completionTokens }
    let evs := [Event.detailCall opportunityId, Event.haikuCall opportunityId]
    match c.extractResult with
    | none =>
      ⟨db, pushError stats2 ("extract:" ++ opportunityId) "Failed to parse Haiku extraction response", evs⟩
    | some fields =>
      match preScreen fields with
      | some _ =>
        ⟨db, { stats2 with
          opportunities_auto_rejected := stats2.opportunities_auto_rejected + 1 }, evs⟩
      | none =>
        let stats3 := { stats2 with
          tokens_sonnet := stats2.tokens_sonnet + c.scoreCall.promptTokens + c.scoreCall.completionTokens }
        let evs2 := evs ++ [Event.sonnetCall opportunityId]
        match c.scoreResult with
        | none =>
          ⟨db, pushError stats3 ("score:" ++ opportunityId) "Failed to parse Sonnet scoring response", evs2⟩
        | some score =>
          if score.auto_rejected then
            ⟨db, { stats3 with
              opportunities_auto_rejected := stats3.opportunities_auto_rejected + 1 }, evs2⟩
          else if score.weighted_score < 5 then
            ⟨db, { stats3 with
              opportunities_below_threshold := stats3.opportunities_below_threshold + 1 }, evs2⟩
          else
            let evs3 := evs2 ++ [Event.insertAttempt opportunityId]
            match insertOpp db.opportunities (buildRow opportunityId fields score) with
            | Except.error msg =>
              ⟨db, pushError stats3 ("insert:" ++ opportunityId) msg, evs3⟩
            | Except.ok rows =>
              ⟨{ db with opportunities := rows },
               { stats3 with opportunities_inserted := stats3.opportunities_inserted + 1 }, evs3⟩

structure BatchResult where
  db : Db
  stats : RunStats
  cancelled : Bool
  processed : Nat
  events : List Event

/-- The batch loop (sync.ts 320–415) with the cancellation checkpoint before
each candidate.  `processed` counts candidates whose checkpoint passed. -/
def processBatch (env : Env) : List String → Nat → Db → RunStats → BatchResult
  | [], _, db, stats => ⟨db, stats, false, 0, []⟩
  | id :: rest, idx, db, stats =>
    if env.cancelSignal idx then ⟨db, stats, true, 0, []⟩
    else
      let c := processCandidate env id db stats
      let r := processBatch env rest (idx + 1) c.db c.stats
      { r with processed := r.processed + 1, events := c.events ++ r.events }

/-- The single run-row update each terminal path performs. -/
def finalizeRun (db : Db) (runId : Nat) (status : String) (counters : Option RunStats)
    (errLog : Option (List ErrorEntry)) : Db :=
  { db with discovery_runs := db.discovery_runs.map (fun r =>
      if r.id = runId then
        { r with status := status, counters := counters, row_error_log := errLog }
      else r) }

/-! ## Query phase (sync.ts 281–302) -/

structure Phase1State where
  allIds : List String
  stats : RunStats
  queries : List QueryRow
  events : List Event

def queryStep (env : Env) (st : Phase1State) (q : QueryRow) : Phase1State :=
  match env.search q.id with
  | Except.ok r =>
    { allIds := addIds st.allIds r.ids
      stats := { st.stats with
        opportunities_fetched := st.stats.opportunities_fetched + r.ids.length }
      queries := updateQueryPage st.queries q.id (wrapPage q.current_page r.totalPages)
      events := st.events ++ [Event.searchCall q.id] }
  | Except.error e =>
    { st with
      stats := pushError st.stats q.label e
      events := st.events ++ [Event.searchCall q.id] }

def phase1 (env : Env) (qs : List QueryRow) (st : Phase1State) : Phase1State :=
  qs.foldl (queryStep env) st

/-! ## The run body and handler -/

structure BodyResult where
  db : Db
  stats : RunStats
  status : String
  httpStatus : Nat
  processed : Nat
  fetchedUnion : List String
  newIds : List String
  batch : List String
  events : List Event

/-- The catch-block of the handler: mark the run `failed` with a single fatal
error entry (sync.ts 428–437).  Both throw sites fire before any counter has
moved. -/
def fatalResult (db : Db) (runId : Nat) (msg : String) : BodyResult :=
  { db := finalizeRun db runId "failed" none (some [⟨"fatal", msg⟩])
    stats := initialStats
    status := "failed"
    httpStatus := 500
    processed := 0
    fetchedUnion := []
    newIds := []
    batch := []
    events := [Event.runFinalize "failed"] }

/-- The enabled queries in priority order (sync.ts 273–279). -/
def enabledSorted (db : Db) : List QueryRow :=
  sortByPriority (db.discovery_queries.filter (fun q => q.enabled))

/-- Query phase over the whole run (sync.ts 281–302). -/
def runPhase1 (env : Env) (db : Db) : Phase1State :=
  phase1 env (enabledSorted db) ⟨[], initialStats, db.discovery_queries, []⟩

/-- `idArray`: the union of fetched candidate ids, in insertion order. -/
def runUnion (env : Env) (db : Db) : List String := (runPhase1 env db).allIds

/-- `newIds` (sync.ts 313): ids with no opportunity row carrying that
`external_id`.  The query phase never writes `opportunities`, so the lookup
table is the initial one. -/
def runNewIds (env : Env) (db : Db) : List String :=
  (runUnion env db).filter (fun id => !existsExternal db.opportunities id)

/-- `batch` (sync.ts 317): the per-run cap. -/
def runBatch (env : Env) (db : Db) : List String :=
  (runNewIds env db).take MAX_NEW_PER_RUN

/-- The database as the batch loop starts: only the query cursors changed. -/
def runDb1 (env : Env) (db : Db) : Db :=
  { db with discovery_queries := (runPhase1 env db).queries }

/-- The in-memory stats as the batch loop starts: query-phase counters plus
the dedup count `idArray.length - newIds.length` (sync.ts 314). -/
def runStats2 (env : Env) (db : Db) : RunStats :=
  { (runPhase1 env db).stats with
    opportunities_deduplicated := (runUnion env db).length - (runNewIds env db).length }

/-- The completed batch loop of the run. -/
def runPB (env : Env) (db : Db) : BatchResult :=
  processBatch env (runBatch env db) 0 (runDb1 env db) (runStats2 env db)

/-- Terminal status of a run that did not fail fast. -/
def runStatus (env : Env) (db : Db) : String :=
  if (runPB env db).cancelled then "cancelled" else "completed"

/-- `error_log: stats.error_log.length > 0 ? stats.error_log : null`. -/
def runErrLog (env : Env) (db : Db) : Option (List ErrorEntry) :=
  if (runPB env db).stats.error_log.isEmpty then none else some (runPB env db).stats.error_log

/-- The try-block of the handler after the run row exists (sync.ts 262–426). -/
def runSyncBody (env : Env) (db : Db) (runId : Nat) : BodyResult :=
  match activeProfile db.org_profiles with
  | none => fatalResult db runId "No active org profile found"
  | some _ =>
    if (enabledSorted db).isEmpty then
      fatalResult db runId "No enabled discovery queries found"
    else
      { db := finalizeRun (runPB env db).db runId (runStatus env db)
          (some (runPB env db).stats) (runErrLog env db)
        stats := (runPB env db).stats
        status := runStatus env db
        httpStatus := 200
        processed := (runPB env db).processed
        fetchedUnion := runUnion env db
        newIds := runNewIds env db
        batch := runBatch env db
        events := (runPhase1 env db).events ++ (runPB env db).events
          ++ [Event.runFinalize (runStatus env db)] }

/-- An HTTP request to the sync endpoint. -/
structure Request where
  method : String
  authorization : Option String

/-- `isAdminJwt` (sync.ts 197–214): resolve the JWT to a user, look up the
profile row, require role `admin`. -/
def isAdminJwt (env : Env) (db : Db) (jwt : String) : Bool :=
  match env.authUser jwt with
  | none => false
  | some uid =>
    match db.profiles.find? (fun p => p.1 = uid) with
    | some p => p.2 = "admin"
    | none => false

inductive AuthOutcome where
  | methodNotAllowed : AuthOutcome
  | unauthorized : AuthOutcome
  | authorized (triggeredBy : String) : AuthOutcome
deriving DecidableEq

/-- JS `cronSecret && authHeader === 'Bearer ' + cronSecret` — an unset or
empty secret is falsy (sync.ts 230). -/
def cronMatch (cronSecret : Option String) (authHeader : String) : Bool :=
  match cronSecret with
  | some s => if s = "" then false else authHeader = "Bearer " ++ s
  | none => false

/-- JS `authHeader.startsWith('Bearer ')` plus `authHeader.slice(7)`,
modelled on the character sequence. -/
def bearerToken (h : String) : Option String :=
  if h.data.take 7 = ("Bearer ").data then some (String.mk (h.data.drop 7)) else none

/-- The auth gate of the handler (sync.ts 221–236). -/
def authorize (env : Env) (db : Db) (req : Request) : AuthOutcome :=
  if req.method ≠ "GET" ∧ req.method ≠ "POST" then AuthOutcome.methodNotAllowed
  else
    let authHeader := req.authorization.getD ""
    if cronMatch env.cronSecret authHeader then AuthOutcome.authorized "cron"
    else
      match bearerToken authHeader with
      | some jwt =>
        if isAdminJwt env db jwt then AuthOutcome.authorized "manual"
        else AuthOutcome.unauthorized
      | none => AuthOutcome.unauthorized

structure HandlerResult where
  httpStatus : Nat
  db : Db
  runId : Option Nat
  events : List Event
  body : Option BodyResult

/-- The full handler: method check, auth, run-row creation, run body. -/
def handler (env : Env) (db : Db) (req : Request) : HandlerResult :=
  match authorize env db req with
  | AuthOutcome.methodNotAllowed =>
    { httpStatus := 405, db := db, runId := none, events := [], body := none }
  | AuthOutcome.unauthorized =>
    { httpStatus := 401, db := db, runId := none, events := [], body := none }
  | AuthOutcome.authorized triggeredBy =>
    let runId := db.discovery_runs.length
    let runRow : RunRow :=
      { id := runId, triggered_by := triggeredBy, status := "running",
        counters := none, row_error_log := none }
    let db1 := { db with discovery_runs := db.discovery_runs ++ [runRow] }
    let r := runSyncBody env db1 runId
    { httpStatus := r.httpStatus, db := r.db, runId := some runId,
      events := r.events, body := some r }

/-! ## The drafting assistant's use of the shared ledger (api/ai/chat.ts) -/

/-- The rough pre-call estimate of chat.ts line 102:
`Math.ceil(message.length / 4) + 2000`. -/
def chatBudgetEstimate (messageLength : Nat) : Nat := (messageLength + 3) / 4 + 2000

/-- The ceiling check of chat.ts line 103: refuse (402) when
`tokens_used + estimatedTokens > monthly_limit`. -/
def chatBudgetExceeded (tokensUsed monthlyLimit est : Nat) : Bool :=
  monthlyLimit < tokensUsed + est

/-- The ledger update in chat.ts `onFinish` (lines 252–264): add the call's
prompt plus completion tokens to `token_budgets.tokens_used`. -/
def chatOnFinishBudget (db : Db) (inputTokens outputTokens : Nat) : Db :=
  { db with token_budget_used := db.token_budget_used + inputTokens + outputTokens }

/-! ## Spec-side definitions used to test refinement claims -/

/-- Modelled from the spec: claim C3's dedup rule, keyed by the
`(source, external_id)` pair — a fetched id (whose source is
`simpler_grants_gov`) is new iff no row with non-null `external_id` carries
the same pair. -/
def specPairKeyedNew (rows : List OppRow) (id : String) : Bool :=
  !(rows.any (fun r => r.source = some "simpler_grants_gov" && r.external_id = some id))

/-- Does this candidate's oracle data drive the pipeline all the way to the
insert statement?  (Used to state idempotency: a re-processed candidate whose
outcome is not an insert leaves the table untouched.) -/
def candidateAttemptsInsert (c : CandidateEnv) : Bool :=
  match c.detail with
  | Except.error _ => false
  | Except.ok _ =>
    match c.extractResult with
    | none => false
    | some fields =>
      match preScreen fields with
      | some _ => false
      | none =>
        match c.scoreResult with
        | none => false
        | some score =>
          if score.auto_rejected then false
          else if score.weighted_score < 5 then false
          else true

/-! ## Structural lemmas -/

theorem insertOpp_ok {rows out : List OppRow} {r : OppRow}
    (h : insertOpp rows r = Except.ok out) : out = rows ++ [r] := by
  unfold insertOpp at h
  split at h
  · cases h
  · injection h with h'
    exact h'.symm

theorem processCandidate_shape (env : Env) (id : String) (db : Db) (stats : RunStats) :
    ∃ ops, (processCandidate env id db stats).db
      = { db with opportunities := db.opportunities ++ ops } := by
  cases hdet : (env.candidate id).detail with
  | error e => exact ⟨[], by simp [processCandidate, hdet]⟩
  | ok payload =>
    cases hext : (env.candidate id).extractResult with
    | none => exact ⟨[], by simp [processCandidate, hdet, hext]⟩
    | some fields =>
      cases hpre : preScreen fields with
      | some reason => exact ⟨[], by simp [processCandidate, hdet, hext, hpre]⟩
      | none =>
        cases hsc : (env.candidate id).scoreResult with
        | none => exact ⟨[], by simp [processCandidate, hdet, hext, hpre, hsc]⟩
        | some score =>
          cases har : score.auto_rejected with
          | true => exact ⟨[], by simp [processCandidate, hdet, hext, hpre, hsc, har]⟩
          | false =>
            by_cases hw : score.weighted_score < 5
            · exact ⟨[], by simp [processCandidate, hdet, hext, hpre, hsc, har, hw]⟩
            · cases hins : insertOpp db.opportunities (buildRow id fields score) with
              | error msg =>
                exact ⟨[], by simp [processCandidate, hdet, hext, hpre, hsc, har, hw, hins]⟩
              | ok rows =>
                refine ⟨[buildRow id fields score], ?_⟩
                have hrows := insertOpp_ok hins
                simp [processCandidate, hdet, hext, hpre, hsc, har, hw, hins, hrows]

theorem processBatch_shape (env : Env) : ∀ (b : List String) (i : Nat) (db : Db) (s : RunStats),
    ∃ ops, (processBatch env b i db s).db
      = { db with opportunities := db.opportunities ++ ops } := by
  intro b
  induction b with
  | nil => exact fun i db s => ⟨[], by simp [processBatch]⟩
  | cons id rest ih =>
    intro i db s
    cases hc : env.cancelSignal i with
    | true => exact ⟨[], by simp [processBatch, hc]⟩
    | false =>
      obtain ⟨ops1, h1⟩ := processCandidate_shape env id db s
      obtain ⟨ops2, h2⟩ :=
        ih (i + 1) (processCandidate env id db s).db (processCandidate env id db s).stats
      refine ⟨ops1 ++ ops2, ?_⟩
      simp only [processBatch, hc, Bool.false_eq_true, if_false]
      rw [h2, h1]
      simp [List.append_assoc]

theorem processBatch_preserves (env : Env) (b : List String) (i : Nat) (db : Db) (s : RunStats) :
    (processBatch env b i db s).db.discovery_queries = db.discovery_queries ∧
    (processBatch env b i db s).db.org_profiles = db.org_profiles ∧
    (processBatch env b i db s).db.discovery_runs = db.discovery_runs ∧
    (processBatch env b i db s).db.profiles = db.profiles ∧
    (processBatch env b i db s).db.token_budget_used = db.token_budget_used := by
  obtain ⟨ops, h⟩ := processBatch_shape env b i db s
  rw [h]
  exact ⟨rfl, rfl, rfl, rfl, rfl⟩

/-- The stats fields the query phase never touches. -/
def statsFrame (a b : RunStats) : Prop :=
  a.opportunities_deduplicated = b.opportunities_deduplicated ∧
  a.opportunities_detail_fetched = b.opportunities_detail_fetched ∧
  a.opportunities_auto_rejected = b.opportunities_auto_rejected ∧
  a.opportunities_below_threshold = b.opportunities_below_threshold ∧
  a.opportunities_inserted = b.opportunities_inserted ∧
  a.tokens_haiku = b.tokens_haiku ∧
  a.tokens_sonnet = b.tokens_sonnet

theorem statsFrame_trans {a b c : RunStats} (h1 : statsFrame a b) (h2 : statsFrame b c) :
    statsFrame a c := by
  obtain ⟨x1, x2, x3, x4, x5, x6, x7⟩ := h1
  obtain ⟨y1, y2, y3, y4, y5, y6, y7⟩ := h2
  exact ⟨x1.trans y1, x2.trans y2, x3.trans y3, x4.trans y4, x5.trans y5,
    x6.trans y6, x7.trans y7⟩

theorem queryStep_frame (env : Env) (st : Phase1State) (q : QueryRow) :
    statsFrame (queryStep env st q).stats st.stats := by
  cases hs : env.search q.id with
  | ok r => simp [queryStep, hs, statsFrame]
  | error e => simp [queryStep, hs, statsFrame, pushError]

theorem phase1_frame (env : Env) : ∀ (L : List QueryRow) (st : Phase1State),
    statsFrame (phase1 env L st).stats st.stats := by
  intro L
  induction L with
  | nil => exact fun st => ⟨rfl, rfl, rfl, rfl, rfl, rfl, rfl⟩
  | cons q rest ih =>
    intro st
    have h1 : phase1 env (q :: rest) st = phase1 env rest (queryStep env st q) := rfl
    rw [h1]
    exact statsFrame_trans (ih (queryStep env st q)) (queryStep_frame env st q)

theorem processCandidate_no_insert (env : Env) (id : String) (db : Db) (stats : RunStats)
    (h : candidateAttemptsInsert (env.candidate id) = false) :
    (processCandidate env id db stats).db = db ∧
    (processCandidate env id db stats).stats.opportunities_inserted
      = stats.opportunities_inserted := by
  cases hdet : (env.candidate id).detail with
  | error e => simp [processCandidate, hdet, pushError]
  | ok payload =>
    cases hext : (env.candidate id).extractResult with
    | none => simp [processCandidate, hdet, hext, pushError]
    | some fields =>
      cases hpre : preScreen fields with
      | some reason => simp [processCandidate, hdet, hext, hpre]
      | none =>
        cases hsc : (env.candidate id).scoreResult with
        | none => simp [processCandidate, hdet, hext, hpre, hsc, pushError]
        | some score =>
          cases har : score.auto_rejected with
          | true => simp [processCandidate, hdet, hext, hpre, hsc, har]
          | false =>
            by_cases hw : score.weighted_score < 5
            · simp [processCandidate, hdet, hext, hpre, hsc, har, hw]
            · exfalso
              simp only [candidateAttemptsInsert, hdet, hext, hpre, hsc, har] at h
              simp [hw] at h

theorem processBatch_no_insert (env : Env) : ∀ (b : List String) (i : Nat) (db : Db) (s : RunStats),
    (∀ id ∈ b, candidateAttemptsInsert (env.candidate id) = false) →
    (processBatch env b i db s).db = db ∧
    (processBatch env b i db s).stats.opportunities_inserted = s.opportunities_inserted := by
  intro b
  induction b with
  | nil => intro i db s _; exact ⟨rfl, rfl⟩
  | cons id rest ih =>
    intro i db s hall
    cases hc : env.cancelSignal i with
    | true => simp [processBatch, hc]
    | false =>
      obtain ⟨hdb, hins⟩ := processCandidate_no_insert env id db s
        (hall id (List.mem_cons_self id rest))
      have hrest := ih (i + 1) (processCandidate env id db s).db (processCandidate env id db s).stats
        (fun x hx => hall x (List.mem_cons_of_mem id hx))
      simp only [processBatch, hc, Bool.false_eq_true, if_false]
      exact ⟨hrest.1.trans hdb, hrest.2.trans hins⟩

/-- Events emitted by one candidate never include a run finalize. -/
def isFinalizeEv (e : Event) : Bool :=
  match e with
  | Event.runFinalize _ => true
  | _ => false

theorem processCandidate_no_finalize (env : Env) (id : String) (db : Db) (stats : RunStats) :
    ((processCandidate env id db stats).events.countP isFinalizeEv) = 0 := by
  cases hdet : (env.candidate id).detail with
  | error e => simp [processCandidate, hdet, List.countP_cons, List.countP_nil, isFinalizeEv]
  | ok payload =>
    cases hext : (env.candidate id).extractResult with
    | none => simp [processCandidate, hdet, hext, List.countP_cons, List.countP_nil, isFinalizeEv]
    | some fields =>
      cases hpre : preScreen fields with
      | some reason => simp [processCandidate, hdet, hext, hpre, List.countP_cons, List.countP_nil, isFinalizeEv]
      | none =>
        cases hsc : (env.candidate id).scoreResult with
        | none => simp [processCandidate, hdet, hext, hpre, hsc, List.countP_cons, List.countP_nil, isFinalizeEv]
        | some score =>
          cases har : score.auto_rejected with
          | true => simp [processCandidate, hdet, hext, hpre, hsc, har, List.countP_cons, List.countP_nil, isFinalizeEv]
          | false =>
            by_cases hw : score.weighted_score < 5
            · simp [processCandidate, hdet, hext, hpre, hsc, har, hw, List.countP_cons, List.countP_nil, isFinalizeEv]
            · cases hins : insertOpp db.opportunities (buildRow id fields score) with
              | error msg =>
                simp [processCandidate, hdet, hext, hpre, hsc, har, hw, hins,
                  List.countP_cons, List.countP_nil, isFinalizeEv]
              | ok rows =>
                simp [processCandidate, hdet, hext, hpre, hsc, har, hw, hins,
                  List.countP_cons, List.countP_nil, isFinalizeEv]

theorem processBatch_no_finalize (env : Env) : ∀ (b : List String) (i : Nat) (db : Db) (s : RunStats),
    ((processBatch env b i db s).events.countP isFinalizeEv) = 0 := by
  intro b
  induction b with
  | nil => intro i db s; rfl
  | cons id rest ih =>
    intro i db s
    cases hc : env.cancelSignal i with
    | true => simp [processBatch, hc]
    | false =>
      simp only [processBatch, hc, Bool.false_eq_true, if_false]
      rw [List.countP_append]
      rw [processCandidate_no_finalize, ih]

theorem phase1_no_finalize (env : Env) : ∀ (L : List QueryRow) (st : Phase1State),
    ((phase1 env L st).events.countP isFinalizeEv) = (st.events.countP isFinalizeEv) := by
  intro L
  induction L with
  | nil => intro st; rfl
  | cons q rest ih =>
    intro st
    have h1 : phase1 env (q :: rest) st = phase1 env rest (queryStep env st q) := rfl
    rw [h1, ih]
    cases hs : env.search q.id with
    | ok r => simp [queryStep, hs, List.countP_append, List.countP_cons, List.countP_nil, isFinalizeEv]
    | error e => simp [queryStep, hs, pushError, List.countP_append, List.countP_cons, List.countP_nil, isFinalizeEv]

/-! ## Cursor bookkeeping lemmas -/

theorem find?_updateQueryPage_self (qs : List QueryRow) (qid : Nat) (p : Nat) :
    (updateQueryPage qs qid p).find? (fun x => x.id = qid)
      = (qs.find? (fun x => x.id = qid)).map (fun x => { x with current_page := some p }) := by
  induction qs with
  | nil => rfl
  | cons a l ih =>
    by_cases h : a.id = qid
    · simp [updateQueryPage, List.find?_cons, h]
    · simp only [updateQueryPage, List.map_cons] at ih ⊢
      rw [if_neg h]
      rw [List.find?_cons_of_neg _ (by simp [h]), List.find?_cons_of_neg _ (by simp [h])]
      exact ih

theorem find?_updateQueryPage_ne (qs : List QueryRow) (qid p qid' : Nat) (h : qid' ≠ qid) :
    (updateQueryPage qs qid p).find? (fun x => x.id = qid')
      = qs.find? (fun x => x.id = qid') := by
  induction qs with
  | nil => rfl
  | cons a l ih =>
    by_cases ha : a.id = qid
    · have ha' : ¬ a.id = qid' := by rw [ha]; exact fun hc => h hc.symm
      simp only [updateQueryPage, List.map_cons] at ih ⊢
      rw [if_pos ha]
      rw [List.find?_cons_of_neg _ (by simp [ha']), List.find?_cons_of_neg _ (by simp [ha'])]
      exact ih
    · simp only [updateQueryPage, List.map_cons] at ih ⊢
      rw [if_neg ha]
      by_cases hb : a.id = qid'
      · rw [List.find?_cons_of_pos _ (by simp [hb]), List.find?_cons_of_pos _ (by simp [hb])]
      · rw [List.find?_cons_of_neg _ (by simp [hb]), List.find?_cons_of_neg _ (by simp [hb])]
        exact ih

theorem find?_finalizeRun (db : Db) (runId : Nat) (status : String)
    (counters : Option RunStats) (errLog : Option (List ErrorEntry)) :
    ((finalizeRun db runId status counters errLog).discovery_runs.find? (fun x => x.id = runId))
      = (db.discovery_runs.find? (fun x => x.id = runId)).map
          (fun x => { x with status := status, counters := counters, row_error_log := errLog }) := by
  show ((db.discovery_runs.map _).find? _) = _
  induction db.discovery_runs with
  | nil => rfl
  | cons a l ih =>
    by_cases h : a.id = runId
    · simp [List.find?_cons, h]
    · simp only [List.map_cons]
      rw [if_neg h]
      rw [List.find?_cons_of_neg _ (by simp [h]), List.find?_cons_of_neg _ (by simp [h])]
      exact ih

theorem phase1_find_ne (env : Env) : ∀ (L : List QueryRow) (st : Phase1State) (qid : Nat),
    (∀ q ∈ L, q.id ≠ qid) →
    ((phase1 env L st).queries.find? (fun x => x.id = qid))
      = st.queries.find? (fun x => x.id = qid) := by
  intro L
  induction L with
  | nil => intro st qid _; rfl
  | cons q rest ih =>
    intro st qid hall
    have h1 : phase1 env (q :: rest) st = phase1 env rest (queryStep env st q) := rfl
    rw [h1, ih (queryStep env st q) qid (fun x hx => hall x (List.mem_cons_of_mem q hx))]
    cases hs : env.search q.id with
    | ok r =>
      simp only [queryStep, hs]
      exact find?_updateQueryPage_ne st.queries q.id _ qid
        (fun hc => hall q (List.mem_cons_self q rest) hc.symm)
    | error e => simp [queryStep, hs]

theorem insertByPriority_perm (q : QueryRow) (l : List QueryRow) :
    List.Perm (insertByPriority q l) (q :: l) := by
  induction l with
  | nil => exact List.Perm.refl _
  | cons x xs ih =>
    by_cases h : q.priority < x.priority
    · rw [insertByPriority, if_pos h]
    · rw [insertByPriority, if_neg h]
      exact (ih.cons x).trans (List.Perm.swap q x xs)

theorem sortByPriority_perm : ∀ l : List QueryRow, List.Perm (sortByPriority l) l := by
  intro l
  induction l with
  | nil => exact List.Perm.refl _
  | cons x xs ih =>
    exact (insertByPriority_perm x (sortByPriority xs)).trans (ih.cons x)

theorem enabledSorted_not_empty (db : Db) (q : QueryRow)
    (hq : q ∈ db.discovery_queries) (he : q.enabled = true) :
    (enabledSorted db).isEmpty = false := by
  have hmem : q ∈ db.discovery_queries.filter (fun x => x.enabled) :=
    List.mem_filter.mpr ⟨hq, he⟩
  have hmem2 : q ∈ enabledSorted db :=
    (sortByPriority_perm _).mem_iff.mpr hmem
  cases h : enabledSorted db with
  | nil => rw [h] at hmem2; cases hmem2
  | cons a l => rfl

theorem enabledSorted_mem (db : Db) (q : QueryRow)
    (hq : q ∈ db.discovery_queries) (he : q.enabled = true) :
    q ∈ enabledSorted db :=
  (sortByPriority_perm _).mem_iff.mpr (List.mem_filter.mpr ⟨hq, he⟩)

theorem enabledSorted_ids_nodup (db : Db)
    (hnd : (db.discovery_queries.map (fun x => x.id)).Nodup) :
    ((enabledSorted db).map (fun x => x.id)).Nodup := by
  have h1 : List.Sublist (db.discovery_queries.filter (fun x => x.enabled)) db.discovery_queries :=
    List.filter_sublist _
  have h2 := h1.map (fun x => x.id)
  have h3 := hnd.sublist h2
  have hperm := (sortByPriority_perm (db.discovery_queries.filter (fun x => x.enabled))).map
    (fun x => x.id)
  exact hperm.nodup_iff.mpr h3

theorem find?_eq_of_mem_nodup (qs : List QueryRow) (q : QueryRow) (hmem : q ∈ qs)
    (hnd : (qs.map (fun x => x.id)).Nodup) :
    qs.find? (fun x => x.id = q.id) = some q := by
  induction qs with
  | nil => cases hmem
  | cons a l ih =>
    rcases List.mem_cons.mp hmem with rfl | hmem'
    · exact List.find?_cons_of_pos _ (by simp)
    · have hne : ¬ a.id = q.id := by
        intro hc
        have : q.id ∈ l.map (fun x => x.id) := List.mem_map.mpr ⟨q, hmem', rfl⟩
        rw [List.map_cons, List.nodup_cons] at hnd
        exact hnd.1 (hc ▸ this)
      rw [List.find?_cons_of_neg _ (by simp [hne])]
      exact ih hmem' ((List.map_cons _ _ _ ▸ hnd).of_cons)

/-- The query-phase effect on one query's stored row: updated to the wrapped
page on a successful fetch, untouched on a failed fetch. -/
theorem phase1_cursor (env : Env) (L : List QueryRow) (st : Phase1State) (q : QueryRow)
    (hmem : q ∈ L) (hnd : (L.map (fun x => x.id)).Nodup)
    (hfind : st.queries.find? (fun x => x.id = q.id) = some q) :
    (phase1 env L st).queries.find? (fun x => x.id = q.id)
      = some (match env.search q.id with
          | Except.ok r => { q with current_page := some (wrapPage q.current_page r.totalPages) }
          | Except.error _ => q) := by
  obtain ⟨A, B, rfl⟩ := List.append_of_mem hmem
  have hnd' : ((A.map (fun x => x.id)) ++ q.id :: (B.map (fun x => x.id))).Nodup := by
    simpa using hnd
  have hmid := List.nodup_middle.mp hnd'
  rw [List.nodup_cons] at hmid
  have hnotin := hmid.1
  have hA : ∀ x ∈ A, x.id ≠ q.id := by
    intro x hx hc
    exact hnotin (List.mem_append.mpr (Or.inl (List.mem_map.mpr ⟨x, hx, hc⟩)))
  have hB : ∀ x ∈ B, x.id ≠ q.id := by
    intro x hx hc
    exact hnotin (List.mem_append.mpr (Or.inr (List.mem_map.mpr ⟨x, hx, hc⟩)))
  have hsplit : phase1 env (A ++ q :: B) st
      = phase1 env B (queryStep env (phase1 env A st) q) := by
    show List.foldl _ _ _ = _
    rw [List.foldl_append]
    rfl
  rw [hsplit]
  rw [phase1_find_ne env B _ q.id hB]
  have hAfind : (phase1 env A st).queries.find? (fun x => x.id = q.id) = some q := by
    rw [phase1_find_ne env A st q.id hA]
    exact hfind
  cases hs : env.search q.id with
  | ok r =>
    simp only [queryStep, hs]
    rw [find?_updateQueryPage_self, hAfind]
    rfl
  | error e =>
    simp only [queryStep, hs]
    exact hAfind

/-! ## Claim C6: threshold gate and auto-reject -/

/-- C6: for a candidate whose scoring result parses, an `auto_rejected` result
is never inserted regardless of its numeric score and bumps the auto-rejected
counter; otherwise the candidate is inserted (when the unique index does not
object) iff its weighted score meets the fixed floor 5.0; a below-floor score
bumps the below-threshold counter and persists nothing. -/
theorem threshold_gate (env : Env) (id : String) (db : Db) (stats : RunStats)
    (payload : String) (fields : ExtractedFields) (score : ScoreResult)
    (hdet : (env.candidate id).detail = Except.ok payload)
    (hext : (env.candidate id).extractResult = some fields)
    (hpre : preScreen fields = none)
    (hsc : (env.candidate id).scoreResult = some score) :
    (score.auto_rejected = true →
      (processCandidate env id db stats).stats.opportunities_auto_rejected
          = stats.opportunities_auto_rejected + 1 ∧
      (processCandidate env id db stats).db = db ∧
      (processCandidate env id db stats).stats.opportunities_inserted
          = stats.opportunities_inserted) ∧
    (score.auto_rejected = false → score.weighted_score < 5 →
      (processCandidate env id db stats).stats.opportunities_below_threshold
          = stats.opportunities_below_threshold + 1 ∧
      (processCandidate env id db stats).db = db ∧
      (processCandidate env id db stats).stats.opportunities_inserted
          = stats.opportunities_inserted) ∧
    (score.auto_rejected = false → ¬ score.weighted_score < 5 →
      db.opportunities.any (fun x => conflicts x (buildRow id fields score)) = false →
      (processCandidate env id db stats).db.opportunities
          = db.opportunities ++ [buildRow id fields score] ∧
      (processCandidate env id db stats).stats.opportunities_inserted
          = stats.opportunities_inserted + 1) := by
  refine ⟨?_, ?_, ?_⟩
  · intro har
    simp [processCandidate, hdet, hext, hpre, hsc, har]
  · intro har hw
    simp [processCandidate, hdet, hext, hpre, hsc, har, hw]
  · intro har hw hconf
    simp [processCandidate, hdet, hext, hpre, hsc, har, hw, insertOpp, hconf]

/-! Shared concrete fixtures for witnesses. -/

def wFields : ExtractedFields :=
  { name := "Trail Grant", funder := some "Agency", grant_type := "federal",
    description := some "d", amount_requested := none, amount_max := some 50000,
    primary_deadline := some "2026-12-01", loi_deadline := none,
    eligibility_notes := some "nonprofits", cfda_number := some "10.001" }

def wScoreAt (w : Rat) : ScoreResult :=
  { scores := ⟨8, 8, 8, 8, 8⟩, weighted_score := w, auto_rejected := false,
    auto_reject_reason := none, rationale := "fits", red_flags := [],
    recommended_action := "apply" }

def wCandAt (w : Rat) : CandidateEnv :=
  { detail := Except.ok "payload", extractCall := ⟨"t", 70, 30⟩,
    extractResult := some wFields, scoreCall := ⟨"t", 200, 100⟩,
    scoreResult := some (wScoreAt w) }

def wEnvThreshold : Env :=
  { search := fun _ => Except.error "unused"
    candidate := fun id => if id = "LO" then wCandAt (mkRat 49 10) else wCandAt 5
    cancelSignal := fun _ => false
    cronSecret := none
    authUser := fun _ => none }

def wDbEmpty : Db :=
  { opportunities := [], discovery_queries := [], org_profiles := [],
    discovery_runs := [], profiles := [], token_budget_used := 0 }

/-- Witness for C6 at the boundary scores 4.9 (discarded) and 5.0 (inserted). -/
theorem threshold_gate_witness :
    ((processCandidate wEnvThreshold "LO" wDbEmpty initialStats).stats.opportunities_below_threshold
        = initialStats.opportunities_below_threshold + 1 ∧
     (processCandidate wEnvThreshold "LO" wDbEmpty initialStats).db = wDbEmpty ∧
     (processCandidate wEnvThreshold "LO" wDbEmpty initialStats).stats.opportunities_inserted
        = initialStats.opportunities_inserted) ∧
    ((processCandidate wEnvThreshold "HI" wDbEmpty initialStats).db.opportunities
        = wDbEmpty.opportunities ++ [buildRow "HI" wFields (wScoreAt 5)] ∧
     (processCandidate wEnvThreshold "HI" wDbEmpty initialStats).stats.opportunities_inserted
        = initialStats.opportunities_inserted + 1) :=
  ⟨(threshold_gate wEnvThreshold "LO" wDbEmpty initialStats "payload" wFields
      (wScoreAt (mkRat 49 10)) (by rfl) (by rfl) (by rfl) (by rfl)).2.1 (by rfl) (by decide),
   (threshold_gate wEnvThreshold "HI" wDbEmpty initialStats "payload" wFields
      (wScoreAt 5) (by rfl) (by rfl) (by rfl) (by rfl)).2.2 (by rfl) (by decide) (by rfl)⟩

/-! ## Claim C7: pre-screen short-circuit -/

/-- C7: an extracted award ceiling strictly below $5,000 is rejected by the
pre-screen: the (shared) auto-rejected counter is bumped, the Scoring Stage is
never invoked for that candidate (no sonnet-call event, capable-tier token
counter unchanged), and nothing is persisted. -/
theorem pre_screen_short_circuit (env : Env) (id : String) (db : Db) (stats : RunStats)
    (payload : String) (fields : ExtractedFields) (m : Rat)
    (hdet : (env.candidate id).detail = Except.ok payload)
    (hext : (env.candidate id).extractResult = some fields)
    (hm : fields.amount_max = some m) (hlt : m < 5000) :
    (processCandidate env id db stats).stats.opportunities_auto_rejected
        = stats.opportunities_auto_rejected + 1 ∧
    (processCandidate env id db stats).stats.tokens_sonnet = stats.tokens_sonnet ∧
    (processCandidate env id db stats).events = [Event.detailCall id, Event.haikuCall id] ∧
    Event.sonnetCall id ∉ (processCandidate env id db stats).events ∧
    (processCandidate env id db stats).db = db := by
  have hpre : preScreen fields = some "Award ceiling is below minimum $5,000" := by
    simp [preScreen, hm, hlt]
  refine ⟨?_, ?_, ?_, ?_, ?_⟩ <;> simp [processCandidate, hdet, hext, hpre]

def wCand4999 : CandidateEnv :=
  { detail := Except.ok "payload", extractCall := ⟨"t", 70, 30⟩,
    extractResult := some { wFields with amount_max := some 4999 },
    scoreCall := ⟨"t", 200, 100⟩, scoreResult := some (wScoreAt 9) }

def wEnvPreScreen : Env :=
  { search := fun _ => Except.error "unused"
    candidate := fun _ => wCand4999
    cancelSignal := fun _ => false
    cronSecret := none
    authUser := fun _ => none }

/-- Witness for C7 at award ceiling $4,999: no sonnet call, zero capable-tier
usage for the candidate. -/
theorem pre_screen_short_circuit_witness :
    (processCandidate wEnvPreScreen "X" wDbEmpty initialStats).stats.opportunities_auto_rejected
        = initialStats.opportunities_auto_rejected + 1 ∧
    (processCandidate wEnvPreScreen "X" wDbEmpty initialStats).stats.tokens_sonnet
        = initialStats.tokens_sonnet ∧
    (processCandidate wEnvPreScreen "X" wDbEmpty initialStats).events
        = [Event.detailCall "X", Event.haikuCall "X"] ∧
    Event.sonnetCall "X" ∉ (processCandidate wEnvPreScreen "X" wDbEmpty initialStats).events ∧
    (processCandidate wEnvPreScreen "X" wDbEmpty initialStats).db = wDbEmpty :=
  pre_screen_short_circuit wEnvPreScreen "X" wDbEmpty initialStats "payload"
    { wFields with amount_max := some 4999 } 4999 (by rfl) (by rfl) (by rfl) (by decide)

/-! ## Claim C5: (source, external_id) uniqueness -/

/-- C5: two rows sharing a non-null `(source, external_id)` pair insert
exactly once — the second attempt is rejected by the unique index; inside the
pipeline the failure is logged under the candidate's identifier
(`insert:<id>`), the candidate is skipped without bumping the inserted
counter, and the loop continues without crashing. -/
theorem unique_pair_inserted_once (rows : List OppRow) (r r2 : OppRow) (s e : String)
    (hr : r.source = some s) (hre : r.external_id = some e)
    (h2 : r2.source = some s) (h2e : r2.external_id = some e)
    (hok : rows.any (fun x => conflicts x r) = false)
    (env : Env) (id : String) (db : Db) (stats : RunStats)
    (payload : String) (fields : ExtractedFields) (score : ScoreResult)
    (hdet : (env.candidate id).detail = Except.ok payload)
    (hext : (env.candidate id).extractResult = some fields)
    (hpre : preScreen fields = none)
    (hsc : (env.candidate id).scoreResult = some score)
    (har : score.auto_rejected = false) (hw : ¬ score.weighted_score < 5)
    (hconf : db.opportunities.any (fun x => conflicts x (buildRow id fields score)) = true)
    (hcan : env.cancelSignal 0 = false) :
    insertOpp rows r = Except.ok (rows ++ [r]) ∧
    insertOpp (rows ++ [r]) r2 = Except.error "duplicate key value violates unique constraint" ∧
    (processCandidate env id db stats).stats.error_log
        = stats.error_log
          ++ [⟨"insert:" ++ id, "duplicate key value violates unique constraint"⟩] ∧
    (processCandidate env id db stats).db = db ∧
    (processCandidate env id db stats).stats.opportunities_inserted
        = stats.opportunities_inserted ∧
    (processBatch env [id] 0 db stats).cancelled = false ∧
    (processBatch env [id] 0 db stats).processed = 1 := by
  have hins : insertOpp db.opportunities (buildRow id fields score)
      = Except.error "duplicate key value violates unique constraint" := by
    simp [insertOpp, hconf]
  have hcr : conflicts r r2 = true := by
    simp [conflicts, hr, hre, h2, h2e]
  refine ⟨?_, ?_, ?_, ?_, ?_, ?_, ?_⟩
  · simp [insertOpp, hok]
  · simp [insertOpp, List.any_append, hcr]
  · simp [processCandidate, hdet, hext, hpre, hsc, har, hw, hins, pushError]
  · simp [processCandidate, hdet, hext, hpre, hsc, har, hw, hins]
  · simp [processCandidate, hdet, hext, hpre, hsc, har, hw, hins, pushError]
  · simp [processBatch, hcan]
  · simp [processBatch, hcan]

def wRowA : OppRow := buildRow "DUP" wFields (wScoreAt 7)

def wEnvDup : Env :=
  { search := fun _ => Except.error "unused"
    candidate := fun _ => wCandAt 7
    cancelSignal := fun _ => false
    cronSecret := none
    authUser := fun _ => none }

def wDbWithDup : Db := { wDbEmpty with opportunities := [wRowA] }

/-- Witness for C5: a concrete duplicate `(simpler_grants_gov, DUP)` pair —
the first insert succeeds, the second is rejected, and the pipeline logs and
skips the conflicting candidate. -/
theorem unique_pair_inserted_once_witness :
    insertOpp [] wRowA = Except.ok ([] ++ [wRowA]) ∧
    insertOpp ([] ++ [wRowA]) (buildRow "DUP" wFields (wScoreAt 9))
        = Except.error "duplicate key value violates unique constraint" ∧
    (processCandidate wEnvDup "DUP" wDbWithDup initialStats).stats.error_log
        = initialStats.error_log
          ++ [⟨"insert:" ++ "DUP", "duplicate key value violates unique constraint"⟩] ∧
    (processCandidate wEnvDup "DUP" wDbWithDup initialStats).db = wDbWithDup ∧
    (processCandidate wEnvDup "DUP" wDbWithDup initialStats).stats.opportunities_inserted
        = initialStats.opportunities_inserted ∧
    (processBatch wEnvDup ["DUP"] 0 wDbWithDup initialStats).cancelled = false ∧
    (processBatch wEnvDup ["DUP"] 0 wDbWithDup initialStats).processed = 1 :=
  unique_pair_inserted_once [] wRowA (buildRow "DUP" wFields (wScoreAt 9))
    "simpler_grants_gov" "DUP" (by rfl) (by rfl) (by rfl) (by rfl) (by rfl)
    wEnvDup "DUP" wDbWithDup initialStats "payload" wFields (wScoreAt 7)
    (by rfl) (by rfl) (by rfl) (by rfl) (by rfl) (by decide) (by decide) (by rfl)

/-! ## Claim C2: parse resilience of the JSON helper -/

theorem dropWhile_append_all {p : Char → Bool} :
    ∀ (pre rest : List Char), (∀ c ∈ pre, p c = true) →
    List.dropWhile p (pre ++ rest) = List.dropWhile p rest := by
  intro pre
  induction pre with
  | nil => intro rest _; rfl
  | cons a l ih =>
    intro rest hall
    rw [List.cons_append, List.dropWhile_cons]
    rw [hall a (List.mem_cons_self a l)]
    simp only [if_true]
    exact ih rest (fun c hc => hall c (List.mem_cons_of_mem a hc))

theorem dropWhile_all_nil {p : Char → Bool} :
    ∀ (t : List Char), (∀ c ∈ t, p c = true) → List.dropWhile p t = [] := by
  intro t
  induction t with
  | nil => intro _; rfl
  | cons a l ih =>
    intro hall
    rw [List.dropWhile_cons, hall a (List.mem_cons_self a l)]
    simp only [if_true]
    exact ih (fun c hc => hall c (List.mem_cons_of_mem a hc))

/-- The greedy regex on a text of shape `prose ++ object ++ prose` matches
exactly the object, provided the leading prose has no `{` and the trailing
prose no `}`. -/
theorem regexExtract_of_shape (pre mid post : List Char)
    (hpre : '{' ∉ pre) (hpost : '}' ∉ post) :
    regexExtract (pre ++ ('{' :: mid ++ ['}']) ++ post) = some ('{' :: mid ++ ['}']) := by
  have harr : pre ++ ('{' :: mid ++ ['}']) ++ post
      = pre ++ '{' :: ((mid ++ ['}']) ++ post) := by simp
  have h1 : List.dropWhile (fun c => c ≠ '{') (pre ++ ('{' :: mid ++ ['}']) ++ post)
      = '{' :: ((mid ++ ['}']) ++ post) := by
    rw [harr]
    rw [dropWhile_append_all pre _ (fun c hc => by
      simp only [decide_eq_true_eq]
      exact fun h => hpre (h ▸ hc))]
    rw [List.dropWhile_cons]
    simp
  have h2 : ('{' :: ((mid ++ ['}']) ++ post)).reverse
      = post.reverse ++ '}' :: (mid.reverse ++ ['{']) := by
    simp
  have h3 : List.dropWhile (fun c => c ≠ '}') (post.reverse ++ '}' :: (mid.reverse ++ ['{']))
      = '}' :: (mid.reverse ++ ['{']) := by
    rw [dropWhile_append_all post.reverse _ (fun c hc => by
      simp only [decide_eq_true_eq]
      exact fun h => hpost (h ▸ (List.mem_reverse.mp hc)))]
    rw [List.dropWhile_cons]
    simp
  have h4 : ('}' :: (mid.reverse ++ ['{'])).reverse = '{' :: mid ++ ['}'] := by
    simp
  rw [regexExtract, h1, h2, h3, h4]
  simp

/-- C2 (amended): the helper extracts the substring from the first `{` to the
last `}`; for a response of a valid JSON object wrapped in leading prose
without `{` and trailing prose without `}` parsing succeeds and yields that
object; a response with no brace-delimited object yields null, and the
pipeline then records a non-fatal `extract:<id>` error and skips the
candidate without touching the table. -/
theorem parse_resilience (pre mid post : List Char) (v : Json)
    (env : Env) (id : String) (db : Db) (stats : RunStats) (payload : String)
    (hpre : '{' ∉ pre) (hpost : '}' ∉ post)
    (hv : jsonParse (String.mk ('{' :: mid ++ ['}'])) = some v)
    (hdet : (env.candidate id).detail = Except.ok payload)
    (hnone : (env.candidate id).extractResult = none) :
    parseJson (String.mk (pre ++ ('{' :: mid ++ ['}']) ++ post)) = some v ∧
    (∀ t : List Char, '{' ∉ t → parseJson (String.mk t) = none) ∧
    (processCandidate env id db stats).stats.error_log
        = stats.error_log
          ++ [⟨"extract:" ++ id, "Failed to parse Haiku extraction response"⟩] ∧
    (processCandidate env id db stats).db = db ∧
    (processCandidate env id db stats).stats.opportunities_inserted
        = stats.opportunities_inserted := by
  refine ⟨?_, ?_, ?_, ?_, ?_⟩
  · show (match regexExtract (pre ++ ('{' :: mid ++ ['}']) ++ post) with
      | none => none
      | some m => jsonParse (String.mk m)) = some v
    rw [regexExtract_of_shape pre mid post hpre hpost]
    exact hv
  · intro t ht
    show (match regexExtract t with
      | none => none
      | some m => jsonParse (String.mk m)) = none
    have h1 : List.dropWhile (fun c => c ≠ '{') t = [] :=
      dropWhile_all_nil t (fun c hc => by
        simp only [decide_eq_true_eq]
        exact fun h => ht (h ▸ hc))
    rw [regexExtract, h1]
    rfl
  · simp [processCandidate, hdet, hnone, pushError]
  · simp [processCandidate, hdet, hnone]
  · simp [processCandidate, hdet, hnone, pushError]

def wEnvBadParse : Env :=
  { search := fun _ => Except.error "unused"
    candidate := fun _ =>
      { detail := Except.ok "payload", extractCall := ⟨"no json here", 10, 5⟩,
        extractResult := none, scoreCall := ⟨"", 0, 0⟩, scoreResult := none }
    cancelSignal := fun _ => false
    cronSecret := none
    authUser := fun _ => none }

/-- Witness for C2 (amended): `Here: \x7b"ok": true\x7d Done.` parses to
the object, and an unparseable extraction response is logged and skipped. -/
theorem parse_resilience_witness :
    parseJson (String.mk (("Here: ").data ++ ('{' :: ("\"ok\": true").data ++ ['}'])
        ++ (" Done.").data)) = some (Json.obj [("ok", Json.bool true)]) ∧
    (∀ t : List Char, '{' ∉ t → parseJson (String.mk t) = none) ∧
    (processCandidate wEnvBadParse "B" wDbEmpty initialStats).stats.error_log
        = initialStats.error_log
          ++ [⟨"extract:" ++ "B", "Failed to parse Haiku extraction response"⟩] ∧
    (processCandidate wEnvBadParse "B" wDbEmpty initialStats).db = wDbEmpty ∧
    (processCandidate wEnvBadParse "B" wDbEmpty initialStats).stats.opportunities_inserted
        = initialStats.opportunities_inserted :=
  parse_resilience ("Here: ").data ("\"ok\": true").data (" Done.").data
    (Json.obj [("ok", Json.bool true)]) wEnvBadParse "B" wDbEmpty initialStats "payload"
    (by decide) (by decide) (by rfl) (by rfl) (by rfl)

/-- Counterexample to C2 as stated: the response `\x7b"a": true\x7d x\x7d` is a
single valid JSON object followed by trailing prose, yet the helper returns
null — the regex is greedy (first `{` to last `}`), not first-balanced. -/
theorem parse_resilience_refuted :
    jsonParse "\x7b\"a\": true\x7d" = some (Json.obj [("a", Json.bool true)]) ∧
    "\x7b\"a\": true\x7d x\x7d" = "\x7b\"a\": true\x7d" ++ " x\x7d" ∧
    parseJson "\x7b\"a\": true\x7d x\x7d" = none :=
  ⟨by rfl, by rfl, by rfl⟩

/-! ## Claim C8: pagination cursor advance and wraparound -/

theorem runSyncBody_queries (env : Env) (db : Db) (runId : Nat) (p : OrgProfileRow)
    (hprof : activeProfile db.org_profiles = some p)
    (hne : (enabledSorted db).isEmpty = false) :
    (runSyncBody env db runId).db.discovery_queries = (runPhase1 env db).queries := by
  simp only [runSyncBody, hprof, hne, Bool.false_eq_true, if_false]
  exact (processBatch_preserves env (runBatch env db) 0 (runDb1 env db) (runStats2 env db)).1

/-- C8: every enabled query with a successful fetch has its stored cursor
advanced to `current_page >= total_pages ? 1 : current_page + 1` (so the
cursor wraps to 1 at the last page); a failed fetch leaves the cursor
unchanged, and disabled queries are untouched. -/
theorem cursor_wraparound (env : Env) (db : Db) (runId : Nat) (p : OrgProfileRow) (q : QueryRow)
    (hprof : activeProfile db.org_profiles = some p)
    (hnd : (db.discovery_queries.map (fun x => x.id)).Nodup)
    (hq : q ∈ db.discovery_queries) (he : q.enabled = true) :
    ((runSyncBody env db runId).db.discovery_queries.find? (fun x => x.id = q.id)
      = some (match env.search q.id with
          | Except.ok r => { q with current_page := some (wrapPage q.current_page r.totalPages) }
          | Except.error _ => q)) ∧
    (∀ n : Nat, wrapPage (some n) n = 1) ∧
    (∀ q' ∈ db.discovery_queries, q'.enabled = false →
      (runSyncBody env db runId).db.discovery_queries.find? (fun x => x.id = q'.id)
        = some q') := by
  have hne := enabledSorted_not_empty db q hq he
  refine ⟨?_, ?_, ?_⟩
  · rw [runSyncBody_queries env db runId p hprof hne]
    exact phase1_cursor env (enabledSorted db) _ q (enabledSorted_mem db q hq he)
      (enabledSorted_ids_nodup db hnd) (find?_eq_of_mem_nodup db.discovery_queries q hq hnd)
  · intro n
    simp [wrapPage]
  · intro q' hq' he'
    rw [runSyncBody_queries env db runId p hprof hne]
    have hnotin : ∀ x ∈ enabledSorted db, x.id ≠ q'.id := by
      intro x hx hc
      have hx' : x ∈ db.discovery_queries.filter (fun y => y.enabled) :=
        (sortByPriority_perm _).mem_iff.mp hx
      obtain ⟨hxq, hxe⟩ := List.mem_filter.mp hx'
      have : x = q' := List.inj_on_of_nodup_map hnd hxq hq' hc
      rw [this] at hxe
      rw [he'] at hxe
      cases hxe
    exact (phase1_find_ne env (enabledSorted db) ⟨[], initialStats, db.discovery_queries, []⟩
        q'.id hnotin).trans (find?_eq_of_mem_nodup db.discovery_queries q' hq' hnd)

def wEnvCursor : Env :=
  { search := fun qid => if qid = 1 then Except.ok ⟨["A"], 3⟩ else Except.error "registry 500"
    candidate := fun _ => wCandAt 7
    cancelSignal := fun _ => false
    cronSecret := none
    authUser := fun _ => none }

def wDbCursor : Db :=
  { opportunities := []
    discovery_queries :=
      [⟨1, "q1", true, 1, some 3⟩, ⟨2, "q2", true, 2, some 5⟩, ⟨3, "q3", false, 3, some 9⟩]
    org_profiles := [⟨1, "rubric", true⟩]
    discovery_runs := [⟨0, "cron", "running", none, none⟩]
    profiles := []
    token_budget_used := 0 }

/-- Witness for C8: a query at `current_page = total_pages = 3` wraps to 1, a
query whose fetch fails keeps cursor 5, and a disabled query keeps cursor 9. -/
theorem cursor_wraparound_witness :
    ((runSyncBody wEnvCursor wDbCursor 0).db.discovery_queries.find?
        (fun x => x.id = (1 : Nat)) = some ⟨1, "q1", true, 1, some 1⟩) ∧
    ((runSyncBody wEnvCursor wDbCursor 0).db.discovery_queries.find?
        (fun x => x.id = (2 : Nat)) = some ⟨2, "q2", true, 2, some 5⟩) ∧
    ((runSyncBody wEnvCursor wDbCursor 0).db.discovery_queries.find?
        (fun x => x.id = (3 : Nat)) = some ⟨3, "q3", false, 3, some 9⟩) :=
  ⟨(cursor_wraparound wEnvCursor wDbCursor 0 ⟨1, "rubric", true⟩ ⟨1, "q1", true, 1, some 3⟩
      (by rfl) (by decide) (by decide) (by rfl)).1,
   (cursor_wraparound wEnvCursor wDbCursor 0 ⟨1, "rubric", true⟩ ⟨2, "q2", true, 2, some 5⟩
      (by rfl) (by decide) (by decide) (by rfl)).1,
   (cursor_wraparound wEnvCursor wDbCursor 0 ⟨1, "rubric", true⟩ ⟨1, "q1", true, 1, some 3⟩
      (by rfl) (by decide) (by decide) (by rfl)).2.2 ⟨3, "q3", false, 3, some 9⟩
      (by decide) (by rfl)⟩

/-! ## Claim C4: cooperative cancellation -/

theorem processBatch_cancel (env : Env) : ∀ (b : List String) (i k : Nat) (db : Db) (s : RunStats),
    k < b.length → env.cancelSignal (i + k) = true →
    (∀ j, j < k → env.cancelSignal (i + j) = false) →
    (processBatch env b i db s).cancelled = true ∧
    (processBatch env b i db s).processed = k := by
  intro b
  induction b with
  | nil => intro i k db s hk _ _; exact absurd hk (by simp)
  | cons id rest ih =>
    intro i k db s hk hsig hbefore
    cases k with
    | zero =>
      have h0 : env.cancelSignal i = true := by simpa using hsig
      simp [processBatch, h0]
    | succ k' =>
      have h0 : env.cancelSignal i = false := by
        have := hbefore 0 (Nat.succ_pos k')
        simpa using this
      have hk' : k' < rest.length := by
        simpa [Nat.succ_lt_succ_iff] using hk
      have hsig' : env.cancelSignal ((i + 1) + k') = true := by
        have he : (i + 1) + k' = i + (k' + 1) := by omega
        rw [he]; exact hsig
      have hbefore' : ∀ j, j < k' → env.cancelSignal ((i + 1) + j) = false := by
        intro j hj
        have he : (i + 1) + j = i + (j + 1) := by omega
        rw [he]; exact hbefore (j + 1) (by omega)
      have hrec := ih (i + 1) k' (processCandidate env id db s).db
        (processCandidate env id db s).stats hk' hsig' hbefore'
      simp only [processBatch, h0, Bool.false_eq_true, if_false]
      exact ⟨hrec.1, by rw [hrec.2]⟩

/-- C4: when the status read at the checkpoint before batch item `k` is
`cancelling` (and earlier checkpoints read normal), the run processes exactly
the first `k` candidates, is finalized exactly once with status `cancelled`
and the counters accumulated so far, and already-inserted opportunities stay
in the table. -/
theorem cancellation_checkpoint (env : Env) (db : Db) (runId : Nat) (p : OrgProfileRow) (k : Nat)
    (hprof : activeProfile db.org_profiles = some p)
    (hne : (enabledSorted db).isEmpty = false)
    (hk : k < (runBatch env db).length)
    (hsig : env.cancelSignal k = true)
    (hbefore : ∀ j, j < k → env.cancelSignal j = false) :
    (runSyncBody env db runId).status = "cancelled" ∧
    (runSyncBody env db runId).processed = k ∧
    ((runSyncBody env db runId).events.countP isFinalizeEv) = 1 ∧
    Event.runFinalize "cancelled" ∈ (runSyncBody env db runId).events ∧
    (∃ t, (runSyncBody env db runId).db.opportunities = db.opportunities ++ t) ∧
    ((runSyncBody env db runId).db.discovery_runs.find? (fun x => x.id = runId)
      = (db.discovery_runs.find? (fun x => x.id = runId)).map
          (fun x => { x with
            status := "cancelled"
            counters := some (runSyncBody env db runId).stats
            row_error_log := runErrLog env db })) := by
  have hpb := processBatch_cancel env (runBatch env db) 0 k (runDb1 env db) (runStats2 env db)
    hk (by simpa using hsig) (fun j hj => by simpa using hbefore j hj)
  have hcan : (runPB env db).cancelled = true := hpb.1
  have hst : runStatus env db = "cancelled" := by simp [runStatus, hcan]
  have h1 : (runPhase1 env db).events.countP isFinalizeEv = 0 := by
    have := phase1_no_finalize env (enabledSorted db) ⟨[], initialStats, db.discovery_queries, []⟩
    simpa using this
  have h2 : (runPB env db).events.countP isFinalizeEv = 0 :=
    processBatch_no_finalize env (runBatch env db) 0 (runDb1 env db) (runStats2 env db)
  simp only [runSyncBody, hprof, hne, Bool.false_eq_true, if_false]
  refine ⟨hst, hpb.2, ?_, ?_, ?_, ?_⟩
  · show ((runPhase1 env db).events ++ (runPB env db).events
        ++ [Event.runFinalize (runStatus env db)]).countP isFinalizeEv = 1
    rw [List.countP_append, List.countP_append, h1, h2]
    simp [List.countP_cons, isFinalizeEv]
  · show Event.runFinalize "cancelled" ∈ (runPhase1 env db).events ++ (runPB env db).events
        ++ [Event.runFinalize (runStatus env db)]
    rw [hst]
    simp
  · obtain ⟨ops, hsh⟩ :=
      processBatch_shape env (runBatch env db) 0 (runDb1 env db) (runStats2 env db)
    exact ⟨ops, congrArg Db.opportunities hsh⟩
  · show (finalizeRun (runPB env db).db runId (runStatus env db)
        (some (runPB env db).stats) (runErrLog env db)).discovery_runs.find?
          (fun x => x.id = runId) = _
    rw [find?_finalizeRun]
    have hruns : (runPB env db).db.discovery_runs = db.discovery_runs :=
      (processBatch_preserves env (runBatch env db) 0 (runDb1 env db) (runStats2 env db)).2.2.1
    rw [hruns, hst]

def wEnvCancel : Env :=
  { search := fun _ => Except.ok ⟨["A", "B", "C", "D", "E"], 1⟩
    candidate := fun _ => wCandAt 7
    cancelSignal := fun i => i = 1
    cronSecret := none
    authUser := fun _ => none }

def wDbCancel : Db :=
  { opportunities := []
    discovery_queries := [⟨1, "q1", true, 1, some 1⟩]
    org_profiles := [⟨1, "rubric", true⟩]
    discovery_runs := [⟨0, "manual", "running", none, none⟩]
    profiles := []
    token_budget_used := 0 }

/-- Witness for C4: cancellation signalled after the first of five queued
candidates completes — exactly one processed candidate, status `cancelled`. -/
theorem cancellation_checkpoint_witness :
    (runSyncBody wEnvCancel wDbCancel 0).status = "cancelled" ∧
    (runSyncBody wEnvCancel wDbCancel 0).processed = 1 ∧
    ((runSyncBody wEnvCancel wDbCancel 0).events.countP isFinalizeEv) = 1 ∧
    Event.runFinalize "cancelled" ∈ (runSyncBody wEnvCancel wDbCancel 0).events ∧
    (∃ t, (runSyncBody wEnvCancel wDbCancel 0).db.opportunities
        = wDbCancel.opportunities ++ t) ∧
    ((runSyncBody wEnvCancel wDbCancel 0).db.discovery_runs.find? (fun x => x.id = (0 : Nat))
      = (wDbCancel.discovery_runs.find? (fun x => x.id = (0 : Nat))).map
          (fun x => { x with
            status := "cancelled"
            counters := some (runSyncBody wEnvCancel wDbCancel 0).stats
            row_error_log := runErrLog wEnvCancel wDbCancel })) :=
  cancellation_checkpoint wEnvCancel wDbCancel 0 ⟨1, "rubric", true⟩ 1
    (by rfl) (by rfl) (by decide) (by rfl) (by decide)

/-! ## Claim C9: second-run idempotency -/

theorem existsExternal_iff (rows : List OppRow) (id : String) :
    existsExternal rows id = true ↔ ∃ row ∈ rows, row.external_id = some id := by
  simp [existsExternal, List.any_eq_true]

theorem runNewIds_mem (env : Env) (db : Db) (id : String) :
    id ∈ runNewIds env db
      ↔ (id ∈ runUnion env db ∧ ¬ ∃ row ∈ db.opportunities, row.external_id = some id) := by
  simp [runNewIds, List.mem_filter, existsExternal, List.any_eq_true]

/-- C9: a second run in which every fetched id either already has a persisted
opportunity row or re-processes to a non-inserting outcome (same registry
data, same model responses, no genuinely new opportunity) inserts zero rows —
whatever the pagination cursors are, dedup is driven by the table alone. -/
theorem second_run_inserts_nothing (env : Env) (db : Db) (runId : Nat) (p : OrgProfileRow)
    (hprof : activeProfile db.org_profiles = some p)
    (hne : (enabledSorted db).isEmpty = false)
    (hsecond : ∀ id ∈ runUnion env db,
      (∃ row ∈ db.opportunities, row.external_id = some id) ∨
      candidateAttemptsInsert (env.candidate id) = false) :
    (runSyncBody env db runId).stats.opportunities_inserted = 0 ∧
    (runSyncBody env db runId).db.opportunities = db.opportunities := by
  have hbatch : ∀ id ∈ runBatch env db, candidateAttemptsInsert (env.candidate id) = false := by
    intro id hid
    have hidn : id ∈ runNewIds env db := List.take_subset _ _ hid
    obtain ⟨hu, hnex⟩ := (runNewIds_mem env db id).mp hidn
    rcases hsecond id hu with hex | hno
    · exact absurd hex hnex
    · exact hno
  have hnb := processBatch_no_insert env (runBatch env db) 0 (runDb1 env db) (runStats2 env db)
    hbatch
  have hins0 : (runStats2 env db).opportunities_inserted = 0 := by
    have hf := phase1_frame env (enabledSorted db) ⟨[], initialStats, db.discovery_queries, []⟩
    have h0 : (runPhase1 env db).stats.opportunities_inserted = 0 := by
      have := hf.2.2.2.2.1
      simpa [initialStats] using this
    simpa [runStats2] using h0
  constructor
  · simp only [runSyncBody, hprof, hne, Bool.false_eq_true, if_false]
    show (runPB env db).stats.opportunities_inserted = 0
    have h : (runPB env db).stats.opportunities_inserted
        = (runStats2 env db).opportunities_inserted := hnb.2
    rw [h, hins0]
  · simp only [runSyncBody, hprof, hne, Bool.false_eq_true, if_false]
    show (runPB env db).db.opportunities = db.opportunities
    have h : (runPB env db).db = runDb1 env db := hnb.1
    rw [h]
    rfl

def wEnvSecond : Env :=
  { search := fun _ => Except.ok ⟨["A", "B", "C"], 4⟩
    candidate := fun id => if id = "C" then wCandAt (mkRat 49 10) else wCandAt 7
    cancelSignal := fun _ => false
    cronSecret := none
    authUser := fun _ => none }

def wDbSecond : Db :=
  { opportunities := [buildRow "A" wFields (wScoreAt 7), buildRow "B" wFields (wScoreAt 6)]
    discovery_queries := [⟨1, "q1", true, 1, some 2⟩]
    org_profiles := [⟨1, "rubric", true⟩]
    discovery_runs := []
    profiles := []
    token_budget_used := 0 }

/-- Witness for C9: the second run re-fetches A and B (already inserted) and
C (below threshold again) — zero insertions, table unchanged. -/
theorem second_run_inserts_nothing_witness :
    (runSyncBody wEnvSecond wDbSecond 0).stats.opportunities_inserted = 0 ∧
    (runSyncBody wEnvSecond wDbSecond 0).db.opportunities = wDbSecond.opportunities :=
  second_run_inserts_nothing wEnvSecond wDbSecond 0 ⟨1, "rubric", true⟩
    (by rfl) (by rfl) (by decide)

/-! ## Claim C3: the dedup filter -/

theorem processCandidate_fetch_frame (env : Env) (id : String) (db : Db) (stats : RunStats) :
    (processCandidate env id db stats).stats.opportunities_fetched
        = stats.opportunities_fetched ∧
    (processCandidate env id db stats).stats.opportunities_deduplicated
        = stats.opportunities_deduplicated := by
  cases hdet : (env.candidate id).detail with
  | error e => simp [processCandidate, hdet, pushError]
  | ok payload =>
    cases hext : (env.candidate id).extractResult with
    | none => simp [processCandidate, hdet, hext, pushError]
    | some fields =>
      cases hpre : preScreen fields with
      | some reason => simp [processCandidate, hdet, hext, hpre]
      | none =>
        cases hsc : (env.candidate id).scoreResult with
        | none => simp [processCandidate, hdet, hext, hpre, hsc, pushError]
        | some score =>
          cases har : score.auto_rejected with
          | true => simp [processCandidate, hdet, hext, hpre, hsc, har]
          | false =>
            by_cases hw : score.weighted_score < 5
            · simp [processCandidate, hdet, hext, hpre, hsc, har, hw]
            · cases hins : insertOpp db.opportunities (buildRow id fields score) with
              | error msg =>
                simp [processCandidate, hdet, hext, hpre, hsc, har, hw, hins, pushError]
              | ok rows =>
                simp [processCandidate, hdet, hext, hpre, hsc, har, hw, hins]

theorem processBatch_fetch_frame (env : Env) :
    ∀ (b : List String) (i : Nat) (db : Db) (s : RunStats),
    (processBatch env b i db s).stats.opportunities_fetched = s.opportunities_fetched ∧
    (processBatch env b i db s).stats.opportunities_deduplicated
        = s.opportunities_deduplicated := by
  intro b
  induction b with
  | nil => intro i db s; exact ⟨rfl, rfl⟩
  | cons id rest ih =>
    intro i db s
    cases hc : env.cancelSignal i with
    | true => simp [processBatch, hc]
    | false =>
      have hrec := ih (i + 1) (processCandidate env id db s).db (processCandidate env id db s).stats
      have hcand := processCandidate_fetch_frame env id db s
      simp only [processBatch, hc, Bool.false_eq_true, if_false]
      exact ⟨hrec.1.trans hcand.1, hrec.2.trans hcand.2⟩

/-- C3 (amended): the new-id set is the exact set difference between the
fetched union and the persisted ids keyed by `external_id` alone (exact
string match; the `source` column is not consulted), the batch handed to the
pipeline is its `MAX_NEW_PER_RUN` prefix, and the deduplicated counter equals
the union size minus the new-set size — the number of fetched ids that
already have a row with that `external_id`. -/
theorem dedup_exact_set_difference (env : Env) (db : Db) (runId : Nat) (p : OrgProfileRow)
    (hprof : activeProfile db.org_profiles = some p)
    (hne : (enabledSorted db).isEmpty = false) :
    (∀ id, id ∈ (runSyncBody env db runId).newIds ↔
        (id ∈ runUnion env db ∧ ¬ ∃ row ∈ db.opportunities, row.external_id = some id)) ∧
    (runSyncBody env db runId).batch
        = ((runSyncBody env db runId).newIds).take MAX_NEW_PER_RUN ∧
    (runSyncBody env db runId).stats.opportunities_deduplicated
        = (runUnion env db).length - (runSyncBody env db runId).newIds.length ∧
    (runSyncBody env db runId).stats.opportunities_deduplicated
        = ((runUnion env db).filter (fun id => existsExternal db.opportunities id)).length := by
  have hded : (runSyncBody env db runId).stats.opportunities_deduplicated
      = (runUnion env db).length - (runNewIds env db).length := by
    simp only [runSyncBody, hprof, hne, Bool.false_eq_true, if_false]
    show (runPB env db).stats.opportunities_deduplicated
        = (runUnion env db).length - (runNewIds env db).length
    have h := (processBatch_fetch_frame env (runBatch env db) 0 (runDb1 env db)
      (runStats2 env db)).2
    have h' : (runPB env db).stats.opportunities_deduplicated
        = (runStats2 env db).opportunities_deduplicated := h
    rw [h']
    rfl
  refine ⟨?_, ?_, ?_, ?_⟩
  · intro id
    have : (runSyncBody env db runId).newIds = runNewIds env db := by
      simp only [runSyncBody, hprof, hne, Bool.false_eq_true, if_false]
    rw [this]
    exact runNewIds_mem env db id
  · simp only [runSyncBody, hprof, hne, Bool.false_eq_true, if_false]
    rfl
  · have : (runSyncBody env db runId).newIds = runNewIds env db := by
      simp only [runSyncBody, hprof, hne, Bool.false_eq_true, if_false]
    rw [this]
    exact hded
  · rw [hded]
    have hsplit := List.length_eq_length_filter_add
      (l := runUnion env db) (fun id => existsExternal db.opportunities id)
    have : (runNewIds env db).length
        = ((runUnion env db).filter (fun id => !existsExternal db.opportunities id)).length := rfl
    rw [this]
    omega

/-- A manually entered opportunity sharing an external id with a registry
candidate but carrying a different source. -/
def wRowManual : OppRow :=
  { type_id := "grant", name := "old manual entry", funder := none, grant_type := "federal",
    description := none, amount_max := none, primary_deadline := none, loi_deadline := none,
    eligibility_notes := none, cfda_number := none, status := "grant_identified",
    source := some "manual", external_id := some "X", external_url := "",
    ai_match_score := none, ai_match_rationale := none, ai_score_detail := none,
    auto_discovered := false }

def wEnvC3 : Env :=
  { search := fun _ => Except.ok ⟨["X"], 1⟩
    candidate := fun _ => wCandAt 7
    cancelSignal := fun _ => false
    cronSecret := none
    authUser := fun _ => none }

def wDbC3 : Db :=
  { opportunities := [wRowManual]
    discovery_queries := [⟨1, "q1", true, 1, some 1⟩]
    org_profiles := [⟨1, "rubric", true⟩]
    discovery_runs := []
    profiles := []
    token_budget_used := 0 }

/-- Counterexample to C3 as stated: fetched id `X` has no persisted row with
the pair `(simpler_grants_gov, X)` — under the claim it must be treated as
new — yet the code's dedup (keyed by `external_id` alone) filters it out:
it is not in the new-id set, counts as deduplicated, and is never processed. -/
theorem dedup_pair_keying_refuted :
    specPairKeyedNew wDbC3.opportunities "X" = true ∧
    "X" ∈ runUnion wEnvC3 wDbC3 ∧
    "X" ∉ runNewIds wEnvC3 wDbC3 ∧
    (runSyncBody wEnvC3 wDbC3 0).stats.opportunities_deduplicated = 1 ∧
    Event.detailCall "X" ∉ (runSyncBody wEnvC3 wDbC3 0).events := by
  refine ⟨by decide, by decide, by decide, by decide, by decide⟩

/-- Witness for C3 (amended) on the same concrete state. -/
theorem dedup_exact_set_difference_witness :
    (∀ id, id ∈ (runSyncBody wEnvC3 wDbC3 0).newIds ↔
        (id ∈ runUnion wEnvC3 wDbC3 ∧
         ¬ ∃ row ∈ wDbC3.opportunities, row.external_id = some id)) ∧
    (runSyncBody wEnvC3 wDbC3 0).batch
        = ((runSyncBody wEnvC3 wDbC3 0).newIds).take MAX_NEW_PER_RUN ∧
    (runSyncBody wEnvC3 wDbC3 0).stats.opportunities_deduplicated
        = (runUnion wEnvC3 wDbC3).length - (runSyncBody wEnvC3 wDbC3 0).newIds.length ∧
    (runSyncBody wEnvC3 wDbC3 0).stats.opportunities_deduplicated
        = ((runUnion wEnvC3 wDbC3).filter
            (fun id => existsExternal wDbC3.opportunities id)).length :=
  dedup_exact_set_difference wEnvC3 wDbC3 0 ⟨1, "rubric", true⟩ (by rfl) (by rfl)

/-! ## Claim C1: the shared monthly token ledger -/

theorem runSyncBody_budget (env : Env) (db : Db) (runId : Nat) :
    (runSyncBody env db runId).db.token_budget_used = db.token_budget_used := by
  cases hap : activeProfile db.org_profiles with
  | none => simp [runSyncBody, hap, fatalResult, finalizeRun]
  | some p =>
    cases hne : (enabledSorted db).isEmpty with
    | true => simp [runSyncBody, hap, hne, fatalResult, finalizeRun]
    | false =>
      simp only [runSyncBody, hap, hne, Bool.false_eq_true, if_false]
      exact (processBatch_preserves env (runBatch env db) 0 (runDb1 env db)
        (runStats2 env db)).2.2.2.2

/-- C1 (amended): the pipeline's model calls accrue usage only into the run's
per-tier counters; no part of the sync handler mutates the shared
`token_budgets` ledger — only the drafting assistant's `onFinish` increments
it (by prompt plus completion tokens, against the same monthly ceiling). -/
theorem token_ledger_amended (env : Env) (db : Db) (req : Request) (i o : Nat)
    (id : String) (db2 : Db) (stats : RunStats) (payload : String)
    (hdet : (env.candidate id).detail = Except.ok payload) :
    (handler env db req).db.token_budget_used = db.token_budget_used ∧
    (chatOnFinishBudget db i o).token_budget_used = db.token_budget_used + i + o ∧
    (processCandidate env id db2 stats).stats.tokens_haiku
        = stats.tokens_haiku + (env.candidate id).extractCall.promptTokens
          + (env.candidate id).extractCall.completionTokens ∧
    (processCandidate env id db2 stats).db.token_budget_used = db2.token_budget_used := by
  refine ⟨?_, rfl, ?_, ?_⟩
  · cases hao : authorize env db req with
    | methodNotAllowed => simp [handler, hao]
    | unauthorized => simp [handler, hao]
    | authorized t =>
      simp only [handler, hao]
      exact runSyncBody_budget env _ db.discovery_runs.length
  · cases hext : (env.candidate id).extractResult with
    | none => simp [processCandidate, hdet, hext, pushError]
    | some fields =>
      cases hpre : preScreen fields with
      | some reason => simp [processCandidate, hdet, hext, hpre]
      | none =>
        cases hsc : (env.candidate id).scoreResult with
        | none => simp [processCandidate, hdet, hext, hpre, hsc, pushError]
        | some score =>
          cases har : score.auto_rejected with
          | true => simp [processCandidate, hdet, hext, hpre, hsc, har]
          | false =>
            by_cases hw : score.weighted_score < 5
            · simp [processCandidate, hdet, hext, hpre, hsc, har, hw]
            · cases hins : insertOpp db2.opportunities (buildRow id fields score) with
              | error msg =>
                simp [processCandidate, hdet, hext, hpre, hsc, har, hw, hins, pushError]
              | ok rows =>
                simp [processCandidate, hdet, hext, hpre, hsc, har, hw, hins]
  · obtain ⟨ops, hsh⟩ := processCandidate_shape env id db2 stats
    rw [hsh]

def wEnvLedger : Env :=
  { search := fun _ => Except.ok ⟨["A"], 1⟩
    candidate := fun _ => wCandAt 7
    cancelSignal := fun _ => false
    cronSecret := some "sec"
    authUser := fun _ => none }

def wDbLedger : Db :=
  { opportunities := []
    discovery_queries := [⟨1, "q1", true, 1, some 1⟩]
    org_profiles := [⟨1, "rubric", true⟩]
    discovery_runs := []
    profiles := []
    token_budget_used := 0 }

def wReqCron : Request := ⟨"GET", some "Bearer sec"⟩

/-- Counterexample to C1 as stated: the run makes the Extraction Stage call
(70 prompt + 30 completion tokens — the per-tier counter ends at 100), yet
the shared monthly ledger is unchanged at 0: sync.ts never writes
`token_budgets`. -/
theorem token_ledger_refuted :
    Event.haikuCall "A" ∈ (handler wEnvLedger wDbLedger wReqCron).events ∧
    ((handler wEnvLedger wDbLedger wReqCron).body.map (fun b => b.stats.tokens_haiku))
        = some 100 ∧
    wDbLedger.token_budget_used = 0 ∧
    (handler wEnvLedger wDbLedger wReqCron).db.token_budget_used = 0 := by
  refine ⟨by decide, by decide, by decide, by decide⟩

/-- Witness for C1 (amended) at a concrete run and chat call. -/
theorem token_ledger_amended_witness :
    (handler wEnvLedger wDbLedger wReqCron).db.token_budget_used
        = wDbLedger.token_budget_used ∧
    (chatOnFinishBudget wDbLedger 11 22).token_budget_used
        = wDbLedger.token_budget_used + 11 + 22 ∧
    (processCandidate wEnvLedger "A" wDbEmpty initialStats).stats.tokens_haiku
        = initialStats.tokens_haiku + (wEnvLedger.candidate "A").extractCall.promptTokens
          + (wEnvLedger.candidate "A").extractCall.completionTokens ∧
    (processCandidate wEnvLedger "A" wDbEmpty initialStats).db.token_budget_used
        = wDbEmpty.token_budget_used :=
  token_ledger_amended wEnvLedger wDbLedger wReqCron 11 22 "A" wDbEmpty initialStats
    "payload" (by rfl)

/-! ## Claim C10: unauthorized requests perform no state change -/

/-- C10: a request whose method is neither GET nor POST is answered 405, and
a well-formed request whose Authorization header matches neither the
configured cron secret nor an admin JWT is answered 401; in both cases the
handler creates no run row, performs no database change, and makes no
external call. -/
theorem unauthorized_no_state_change (env : Env) (db : Db) (req : Request) :
    (req.method ≠ "GET" → req.method ≠ "POST" →
      (handler env db req).httpStatus = 405 ∧ (handler env db req).db = db ∧
      (handler env db req).events = [] ∧ (handler env db req).runId = none) ∧
    ((req.method = "GET" ∨ req.method = "POST") →
      cronMatch env.cronSecret (req.authorization.getD "") = false →
      (∀ jwt, bearerToken (req.authorization.getD "") = some jwt →
        isAdminJwt env db jwt = false) →
      (handler env db req).httpStatus = 401 ∧ (handler env db req).db = db ∧
      (handler env db req).events = [] ∧ (handler env db req).runId = none) := by
  constructor
  · intro h1 h2
    have hao : authorize env db req = AuthOutcome.methodNotAllowed := by
      simp [authorize, h1, h2]
    simp [handler, hao]
  · intro hm hc hj
    have hao : authorize env db req = AuthOutcome.unauthorized := by
      have hmm : ¬ (req.method ≠ "GET" ∧ req.method ≠ "POST") := by
        rcases hm with h | h <;> simp [h]
      cases hbt : bearerToken (req.authorization.getD "") with
      | none => simp [authorize, hmm, hc, hbt]
      | some jwt => simp [authorize, hmm, hc, hbt, hj jwt hbt]
    simp [handler, hao]

def wEnvAuth : Env :=
  { search := fun _ => Except.ok ⟨["A"], 1⟩
    candidate := fun _ => wCandAt 7
    cancelSignal := fun _ => false
    cronSecret := some "sec"
    authUser := fun jwt => if jwt = "tok" then some 7 else none }

def wDbAuth : Db :=
  { opportunities := []
    discovery_queries := [⟨1, "q1", true, 1, some 1⟩]
    org_profiles := [⟨1, "rubric", true⟩]
    discovery_runs := []
    profiles := [(7, "member")]
    token_budget_used := 0 }

/-- Witness for C10: a DELETE request gets 405 and a POST bearing a
non-admin JWT gets 401; neither changes the database or makes a call. -/
theorem unauthorized_no_state_change_witness :
    ((handler wEnvAuth wDbAuth ⟨"DELETE", some "Bearer sec"⟩).httpStatus = 405 ∧
     (handler wEnvAuth wDbAuth ⟨"DELETE", some "Bearer sec"⟩).db = wDbAuth ∧
     (handler wEnvAuth wDbAuth ⟨"DELETE", some "Bearer sec"⟩).events = [] ∧
     (handler wEnvAuth wDbAuth ⟨"DELETE", some "Bearer sec"⟩).runId = none) ∧
    ((handler wEnvAuth wDbAuth ⟨"POST", some "Bearer tok"⟩).httpStatus = 401 ∧
     (handler wEnvAuth wDbAuth ⟨"POST", some "Bearer tok"⟩).db = wDbAuth ∧
     (handler wEnvAuth wDbAuth ⟨"POST", some "Bearer tok"⟩).events = [] ∧
     (handler wEnvAuth wDbAuth ⟨"POST", some "Bearer tok"⟩).runId = none) :=
  ⟨(unauthorized_no_state_change wEnvAuth wDbAuth ⟨"DELETE", some "Bearer sec"⟩).1
      (by decide) (by decide),
   (unauthorized_no_state_change wEnvAuth wDbAuth ⟨"POST", some "Bearer tok"⟩).2
      (Or.inr rfl) (by decide)
      (fun jwt hw => by
        have hjw : jwt = "tok" := by
          have := hw
          simp [bearerToken] at this
          exact this.symm
        rw [hjw]
        decide)⟩

end WA
